import Mathlib

/-!
# SecureWebsite_Project front end: a verification development

Shallow embedding of `Frontend/src/config.js`, `Frontend/src/pages/Register.jsx`
and `Frontend/src/pages/Forum.jsx`.

Conventions of the embedding:

* a JavaScript string is a Lean `String`; functions that scan a string work on
  its list of characters (`String.data`).  `String.length` of JavaScript counts
  UTF-16 code units and is embedded as `jsLength`;
* a regular expression literal is a value of `RE`; `RE.test` is
  `RegExp.prototype.test` for a pattern written between `^` and `$`
  (no flags), i.e. a match of the whole input;
* a value produced by `JSON.parse` / `response.json()` is a `JSValue`;
* a handler is a function from the values it closes over and the outcome of the
  request it awaits to the list of calls it makes, in order.
-/

namespace SecureWebsite

/-! ## Strings -/

/-- The method `String.prototype.replace(pat, rep)` for a string pattern: the first
occurrence of `pat` is replaced by `rep` (`rep` holds no `$` in this code base,
so it is taken literally). -/
def replaceFirst (pat rep : List Char) : List Char → List Char
  | [] => if pat.isEmpty then rep else []
  | c :: cs =>
    if pat.isPrefixOf (c :: cs) then rep ++ (c :: cs).drop pat.length
    else c :: replaceFirst pat rep cs

/-- The call `s.replace(pat, rep)` on strings. -/
def jsReplace (s pat rep : String) : String :=
  ⟨replaceFirst pat.data rep.data s.data⟩

/-- Whether `pat` occurs somewhere in `s` (`s.includes(pat)`). -/
def occursIn (pat : List Char) : List Char → Bool
  | [] => pat.isEmpty
  | c :: cs => pat.isPrefixOf (c :: cs) || occursIn pat cs

/-- The call `s.includes(pat)` on strings. -/
def jsIncludes (s pat : String) : Bool := occursIn pat.data s.data

/-- Number of UTF-16 code units of a character. -/
def utf16Units (c : Char) : Nat := if c.val.toNat < 0x10000 then 1 else 2

/-- The property `s.length`: the number of UTF-16 code units of `s`. -/
def jsLength (s : String) : Nat := (s.data.map utf16Units).sum

/-- The code points matched by `\s` and removed by `trim()`: ECMAScript
WhiteSpace and LineTerminator. -/
def isJsWhitespace (c : Char) : Bool :=
  let n := c.val.toNat
  n == 0x09 || n == 0x0A || n == 0x0B || n == 0x0C || n == 0x0D || n == 0x20 ||
  n == 0xA0 || n == 0x1680 || (0x2000 ≤ n && n ≤ 0x200A) || n == 0x2028 ||
  n == 0x2029 || n == 0x202F || n == 0x205F || n == 0x3000 || n == 0xFEFF

/-- The method `trim()` on a list of characters. -/
def trimChars (cs : List Char) : List Char :=
  ((cs.dropWhile isJsWhitespace).reverse.dropWhile isJsWhitespace).reverse

/-- The call `s.trim()`. -/
def jsTrim (s : String) : String := ⟨trimChars s.data⟩

/-! ## `config.js` -/

/-- Line 1 of `config.js`: `import.meta.env.VITE_API_URL || 'https://rybmw.space'`.
The variable is `none` when unset; the empty string is falsy. -/
def API_URL (viteApiUrl : Option String) : String :=
  match viteApiUrl with
  | none => "https://rybmw.space"
  | some u => if u = "" then "https://rybmw.space" else u

/-- Line 2 of `config.js`:
`API_URL.replace('https://', 'wss://').replace('http://', 'ws://')`. -/
def WS_URL (viteApiUrl : Option String) : String :=
  jsReplace (jsReplace (API_URL viteApiUrl) "https://" "wss://") "http://" "ws://"

/-! ## Regular expressions -/

/-- Abstract form of the regular expression literals of the sources. -/
inductive RE where
  | empty : RE
  | eps : RE
  | cls (p : Char → Bool) : RE
  | cat (a b : RE) : RE
  | alt (a b : RE) : RE
  | star (a : RE) : RE

namespace RE

/-- A literal character. -/
def chr (c : Char) : RE := cls (fun x => x == c)

/-- The quantifier `+`. -/
def plus (r : RE) : RE := cat r (star r)

/-- Whether the expression matches the empty input. -/
def nullable : RE → Bool
  | empty => false
  | eps => true
  | cls _ => false
  | cat a b => nullable a && nullable b
  | alt a b => nullable a || nullable b
  | star _ => true

/-- Brzozowski derivative: what remains to be matched after reading `c`. -/
def deriv : RE → Char → RE
  | empty, _ => empty
  | eps, _ => empty
  | cls p, c => if p c then eps else empty
  | cat a b, c =>
    if nullable a then alt (cat (deriv a c) b) (deriv b c) else cat (deriv a c) b
  | alt a b, c => alt (deriv a c) (deriv b c)
  | star a, c => cat (deriv a c) (star a)

/-- The call `/^r$/.test(s)`: the whole input is matched by `r`. -/
def test (r : RE) (s : List Char) : Bool := nullable (s.foldl deriv r)

/-- Declarative meaning of a regular expression, the reference for `test`. -/
inductive Matches : RE → List Char → Prop
  | eps : Matches eps []
  | cls {p : Char → Bool} {c : Char} : p c = true → Matches (cls p) [c]
  | cat {a b : RE} {u v : List Char} :
      Matches a u → Matches b v → Matches (cat a b) (u ++ v)
  | altL {a b : RE} {u : List Char} : Matches a u → Matches (alt a b) u
  | altR {a b : RE} {u : List Char} : Matches b u → Matches (alt a b) u
  | starNil {a : RE} : Matches (star a) []
  | starCons {a : RE} {u v : List Char} :
      Matches a u → Matches (star a) v → Matches (star a) (u ++ v)

end RE

/-! ## Values of `JSON.parse` -/

/-- A number produced by `JSON.parse`: a finite double, given by its value, or
an infinity (a literal out of range).  The sign of zero is not observed by the
code. -/
inductive JSNumber where
  | finite (q : ℚ)
  | infinite (negative : Bool)
  deriving DecidableEq

/-- A JavaScript value as far as this code handles one: `undefined`, or a value
built by `JSON.parse`.  An object is the list of its own properties. -/
inductive JSValue where
  | undefined
  | null
  | bool (b : Bool)
  | num (x : JSNumber)
  | str (s : String)
  | arr (xs : List JSValue)
  | obj (props : List (String × JSValue))

namespace JSValue

/-- ToBoolean. -/
def truthy : JSValue → Bool
  | undefined => false
  | null => false
  | bool b => b
  | num (.finite q) => decide (q ≠ 0)
  | num (.infinite _) => true
  | str s => decide (s ≠ "")
  | arr _ => true
  | obj _ => true

/-- Own property `k` among a list of properties. -/
def lookup (k : String) : List (String × JSValue) → JSValue
  | [] => undefined
  | (k', v) :: rest => if k' = k then v else lookup k rest

/-- Member access `v.k` for the property names read by this code (`is_active`,
`status`, `type`, `message`, `messages`, `username`, `timestamp`, `detail`):
a TypeError (`none`) on `undefined` and `null`, the own property of an object,
and `undefined` on every other value. -/
def getProp (v : JSValue) (k : String) : Option JSValue :=
  match v with
  | undefined => none
  | null => none
  | obj props => some (lookup k props)
  | _ => some undefined

/-- Strict equality `a === b`.  Two arrays or objects are equal only when they
are the same reference; the operands compared by this code come from different
`JSON.parse` results (or one is a string literal), so they never are. -/
def strictEq : JSValue → JSValue → Bool
  | undefined, undefined => true
  | null, null => true
  | bool a, bool b => a == b
  | num a, num b => decide (a = b)
  | str a, str b => decide (a = b)
  | _, _ => false

/-- The expression `a || b`. -/
def orElse (a b : JSValue) : JSValue := if a.truthy then a else b

end JSValue

/-! ## `Register.jsx` -/

/-- The class `[^\s@]`. -/
def notSpaceNorAt (c : Char) : Bool := !(isJsWhitespace c || c == '@')

/-- The constant `emailRegex = /^[^\s@]+@[^\s@]+\.[^\s@]+$/` (line 18). -/
def emailRegex : RE :=
  .cat (.plus (.cls notSpaceNorAt))
    (.cat (.chr '@')
      (.cat (.plus (.cls notSpaceNorAt))
        (.cat (.chr '.') (.plus (.cls notSpaceNorAt)))))

/-- The function `isValidEmail` (lines 17-20). -/
def isValidEmail (email : String) : Bool := emailRegex.test email.data

/-- The property of an address as the specification words it: no whitespace,
exactly one `@`, something before it, and after it a `.` that is neither the
first nor the last character of that part. -/
def emailSpec (s : List Char) : Prop :=
  (∀ c ∈ s, isJsWhitespace c = false) ∧ s.count '@' = 1 ∧
  ∃ l d, s = l ++ '@' :: d ∧ l ≠ [] ∧
    ∃ i, 0 < i ∧ i + 1 < d.length ∧ d[i]? = some '.'

/-- The form fields of `Register` (lines 8-11). -/
structure RegisterForm where
  username : String
  email : String
  password : String
  confirmPassword : String

/-- How the registration request ends. -/
inductive RegisterOutcome where
  /-- Either `fetch`, `response.json()` or the read of `data.detail` threw an error
  with this message. -/
  | threw (message : String)
  /-- The response is not ok; the message of `new Error(data.detail || 'Błąd rejestracji')`. -/
  | notOk (message : String)
  /-- The response is ok. -/
  | ok

/-- What `handleSubmit` calls, in order. -/
inductive RegisterCall where
  | preventDefault
  | setError (msg : String)
  | setIsLoading (b : Bool)
  | postRegister (url username email password : String)
  | navigate (path : String)
  | consoleError
  deriving DecidableEq

/-- The `catch` and `finally` blocks of `handleSubmit` (lines 70-75). -/
def registerCatch (message : String) : List RegisterCall :=
  [.setError (if message ≠ "" then message else "Wystąpił błąd podczas rejestracji"),
   .consoleError]

/-- The handler `handleSubmit` (lines 22-76). -/
def handleSubmit (apiUrl : String) (f : RegisterForm) (outcome : RegisterOutcome) :
    List RegisterCall :=
  [.preventDefault, .setError ""] ++
  if jsLength f.username < 3 then
    [.setError "Nazwa użytkownika musi mieć minimum 3 znaki"]
  else if !isValidEmail f.email then
    [.setError "Podaj prawidłowy adres email"]
  else if jsLength f.password < 12 then
    [.setError "Hasło musi mieć minimum 12 znaków"]
  else if f.password ≠ f.confirmPassword then
    [.setError "Hasła nie są takie same"]
  else
    [.setIsLoading true,
     .postRegister (apiUrl ++ "/api/register") f.username f.email f.password] ++
    (match outcome with
     | .threw m => registerCatch m
     | .notOk m => registerCatch m
     | .ok => [.navigate "/login"]) ++
    [.setIsLoading false]

/-- The value of `isLoading` after the calls, from `cur`. -/
def isLoadingAfter (cur : Bool) : List RegisterCall → Bool
  | [] => cur
  | .setIsLoading b :: rest => isLoadingAfter b rest
  | _ :: rest => isLoadingAfter cur rest

/-- The value of `error` after the calls, from `cur`. -/
def errorAfter (cur : String) : List RegisterCall → String
  | [] => cur
  | .setError m :: rest => errorAfter m rest
  | _ :: rest => errorAfter cur rest

/-- Whether a call is the registration request. -/
def RegisterCall.isRequest : RegisterCall → Bool
  | .postRegister _ _ _ _ => true
  | _ => false

/-! ## `Forum.jsx`: validation, requests and handlers -/

/-- The class `[a-zA-Z0-9-_]`: the ranges `a-z`, `A-Z`, `0-9` and the two
literals `-` and `_`. -/
def nameChar (c : Char) : Bool :=
  decide ('a' ≤ c ∧ c ≤ 'z') || decide ('A' ≤ c ∧ c ≤ 'Z') ||
  decide ('0' ≤ c ∧ c ≤ '9') || c == '-' || c == '_'

/-- The constant `VALID_NAME_REGEX = /^[a-zA-Z0-9-_]+$/` (line 6). -/
def VALID_NAME_REGEX : RE := .plus (.cls nameChar)

/-- The template literal `Bearer ${token}`; a missing token prints as `null`. -/
def bearer (token : Option String) : String := "Bearer " ++ token.getD "null"

/-- The test `!token` for a value of `localStorage.getItem('token')`. -/
def noToken (token : Option String) : Bool :=
  match token with
  | none => true
  | some t => decide (t = "")

/-- The values of `authState`. -/
inductive AuthState where
  | loading | unauthenticated | active | locked
  deriving DecidableEq

/-! ### 1. Auth check (lines 31-57) -/

/-- How the request of `fetchUser` ends: `fetch` rejects, or a response arrives
with a status and a body that `response.json()` parses (`some`) or not. -/
inductive AuthOutcome where
  | fetchFailed
  | response (status : Nat) (body : Option JSValue)

/-- What the auth check effect calls. -/
inductive AuthCall where
  | getMe (url authorization : String)
  | removeToken
  | setUser (userData : JSValue)
  | setAuthState (a : AuthState)

/-- The body of `fetchUser` after `fetch` was called (lines 44-54). -/
def fetchUserDone : AuthOutcome → List AuthCall
  | .fetchFailed => [.setAuthState .unauthenticated]
  | .response status body =>
    if status = 401 then [.removeToken, .setAuthState .unauthenticated]
    else
      match body with
      | none => [.setAuthState .unauthenticated]
      | some userData =>
        .setUser userData ::
          (match userData.getProp "is_active" with
           | none => [.setAuthState .unauthenticated]
           | some v => [.setAuthState (if v.truthy then .active else .locked)])

/-- The auth check effect (lines 32-57). -/
def authCheck (apiUrl : String) (token : Option String) (outcome : AuthOutcome) :
    List AuthCall :=
  if noToken token then [.setAuthState .unauthenticated]
  else .getMe (apiUrl ++ "/api/users/me") (bearer token) :: fetchUserDone outcome

/-- The last `authState` set by the calls, from `cur`. -/
def authStateAfter (cur : AuthState) : List AuthCall → AuthState
  | [] => cur
  | .setAuthState a :: rest => authStateAfter a rest
  | _ :: rest => authStateAfter cur rest

/-- Whether the calls remove the token from storage. -/
def removesToken : List AuthCall → Bool
  | [] => false
  | .removeToken :: _ => true
  | _ :: rest => removesToken rest

/-! ### 2. Chat list (lines 59-75) -/

/-- How the request of `fetchChats` ends. -/
inductive ChatsOutcome where
  | fetchFailed
  | response (ok : Bool) (body : Option JSValue)

/-- The call `data.map(name => name.replace('chat_', ''))` on the elements of an array;
`none` (a TypeError) when an element is not a string. -/
def cleanChats : List JSValue → Option (List String)
  | [] => some []
  | .str name :: rest => (cleanChats rest).map (jsReplace name "chat_" "" :: ·)
  | _ :: _ => none

/-- The argument of `setChats` when `fetchChats` reaches it (lines 67-71):
the response is ok, its body parses and is an array of strings. -/
def fetchChatsDone : ChatsOutcome → Option (List String)
  | .response true (some (.arr data)) => cleanChats data
  | _ => none

/-! ### 3. Create chat (lines 85-116) -/

/-- How the create request ends; for a response that is not ok, the body that
`response.json()` parses (`some`) or not. -/
inductive CreateOutcome where
  | fetchFailed
  | ok
  | notOk (body : Option JSValue)

/-- What `handleCreateChat` calls, in order. -/
inductive CreateCall where
  | setModalError (v : JSValue)
  | setIsCreating (b : Bool)
  | postCreate (url authorization : String)
  | setNewChatName (s : String)
  | setIsModalOpen (b : Bool)
  | fetchChats

/-- The validation message of line 92. -/
def invalidNameMessage : String :=
  "Nazwa może zawierać tylko litery, cyfry, \"-\" i \"_\" (bez spacji)."

/-- The `try`/`catch` of `handleCreateChat` after `fetch` was called
(lines 103-112). -/
def createDone : CreateOutcome → List CreateCall
  | .fetchFailed => [.setModalError (.str "Błąd połączenia.")]
  | .ok => [.setNewChatName "", .setIsModalOpen false, .fetchChats]
  | .notOk none => [.setModalError (.str "Błąd połączenia.")]
  | .notOk (some errorData) =>
    match errorData.getProp "detail" with
    | none => [.setModalError (.str "Błąd połączenia.")]
    | some detail => [.setModalError (detail.orElse (.str "Błąd tworzenia czatu."))]

/-- The handler `handleCreateChat` (lines 86-116). -/
def handleCreateChat (apiUrl : String) (token : Option String) (newChatName : String)
    (outcome : CreateOutcome) : List CreateCall :=
  let chatName := jsTrim newChatName
  .setModalError (.str "") ::
  if chatName = "" then []
  else if !VALID_NAME_REGEX.test chatName.data then
    [.setModalError (.str invalidNameMessage)]
  else
    [.setIsCreating true,
     .postCreate (apiUrl ++ "/api/chat/create/" ++ chatName) (bearer token)] ++
    createDone outcome ++ [.setIsCreating false]

/-- Whether a call is the create request. -/
def CreateCall.isRequest : CreateCall → Bool
  | .postCreate _ _ => true
  | _ => false

/-- The characters the specification allows in a room name: ASCII letters,
digits, `-` and `_`. -/
def specNameChar (c : Char) : Prop :=
  c.isAlpha = true ∨ c.isDigit = true ∨ c = '-' ∨ c = '_'

/-! ### 4. Readiness poll (lines 118-145) -/

/-- How one status request ends. -/
inductive StatusOutcome where
  | fetchFailed
  | response (body : Option JSValue)

/-- What `checkStatus` calls once its request has ended. -/
inductive PollCall where
  | setIsChatReady (b : Bool)
  | setTimeout (ms : Nat)
  | consoleError
  deriving DecidableEq

/-- The body of `checkStatus` after `fetch` was called (lines 131-140), for the
value of `isMounted` at that time.  `data.status` is read only when `isMounted`
holds (`&&`), and reading it on `null` throws into the `catch`. -/
def checkStatusDone (isMounted : Bool) : StatusOutcome → List PollCall
  | .fetchFailed => [.consoleError]
  | .response none => [.consoleError]
  | .response (some data) =>
    if isMounted then
      match data.getProp "status" with
      | none => [.consoleError]
      | some status =>
        if status.strictEq (.str "ACTIVE") then [.setIsChatReady true]
        else [.setTimeout 1000]
    else []

/-- The URL of the status request (line 128). -/
def statusUrl (apiUrl selectedChat : String) : String :=
  apiUrl ++ "/api/chat/status/" ++ selectedChat

/-! ### 5. WebSocket (lines 147-200) -/

/-- The `id` of a displayed message: `Date.now()` for a live message, the
string `h-${idx}-${Date.now()}` for one of the history. -/
inductive MessageId where
  | live (now : Nat)
  | history (idx now : Nat)

/-- An entry of the display list. -/
structure Message where
  id : MessageId
  content : JSValue
  username : JSValue
  timestamp : JSValue
  isOwn : Bool

/-- The callback of `data.messages.map` (lines 173-179) on the element `msg` at
`idx`; `none` when a member access throws. -/
def historyEntry (user : JSValue) (clock : Nat → Nat) (idx : Nat) (msg : JSValue) :
    Option Message := do
  let content ← msg.getProp "message"
  let username ← msg.getProp "username"
  let timestamp ← msg.getProp "timestamp"
  let mine ← user.getProp "username"
  pure { id := .history idx (clock idx), content := content, username := username,
         timestamp := timestamp, isOwn := username.strictEq mine }

/-- The call `data.messages.map(...)` from index `idx` on. -/
def historyEntries (user : JSValue) (clock : Nat → Nat) :
    Nat → List JSValue → Option (List Message)
  | _, [] => some []
  | idx, msg :: rest => do
    let e ← historyEntry user clock idx msg
    let es ← historyEntries user clock (idx + 1) rest
    pure (e :: es)

/-- The entry appended for a frame of type `message` (lines 182-188). -/
def liveEntry (user : JSValue) (clock : Nat → Nat) (data : JSValue) : Option Message := do
  let content ← data.getProp "message"
  let username ← data.getProp "username"
  let timestamp ← data.getProp "timestamp"
  let mine ← user.getProp "username"
  pure { id := .live (clock 0), content := content, username := username,
         timestamp := timestamp, isOwn := username.strictEq mine }

/-- The handler `ws.onmessage` (lines 168-193) as a function of the display list: `isMounted`
and `user` are the values closed over, `frame` is the result of
`JSON.parse(event.data)` (`none` when it throws) and `clock` gives the readings
of `Date.now()`.  An exception leaves the list as it is. -/
def onmessage (isMounted : Bool) (user : JSValue) (clock : Nat → Nat)
    (frame : Option JSValue) (prev : List Message) : List Message :=
  if !isMounted then prev
  else
    match frame with
    | none => prev
    | some data =>
      match data.getProp "type" with
      | none => prev
      | some type =>
        if type.strictEq (.str "history") then
          match data.getProp "messages" with
          | some (.arr msgs) => (historyEntries user clock 0 msgs).getD prev
          | _ => prev
        else if type.strictEq (.str "message") then
          match liveEntry user clock data with
          | some e => prev ++ [e]
          | none => prev
        else prev

/-- The URL of the socket (line 159). -/
def socketUrl (wsUrl selectedChat : String) : String :=
  wsUrl ++ "/api/ws/chat/" ++ selectedChat

/-! ## The Forum component as a transition system

The hooks of `Forum` and the effects 1, 2, 4 and 5 with their cleanups.  A
`commit` is one render followed by its effects: the effects whose dependencies
differ from those of their last run have their cleanups run first, in order,
then their bodies, in order, each body reading the values of that render.  A
setter called by a body changes the hook for the next render only.  Every other
event is one callback run to completion.  Events and commits interleave freely,
which covers every schedule React can choose. -/

/-- The imported constants of `config.js`. -/
structure Env where
  apiUrl : String
  wsUrl : String

/-- Where a run of the readiness poll stands: a request is out, a timer is
set, or nothing is pending. -/
inductive PollPhase where
  | fetching | waiting | idle
  deriving DecidableEq

/-- One run of effect 4: the values it closes over and its `isMounted`. -/
structure PollRun where
  room : String
  token : Option String
  isMounted : Bool
  phase : PollPhase

/-- One socket built by effect 5: the values the run closes over, its
`isMounted`, and whether `close()` was called on it. -/
structure WsRun where
  room : String
  user : JSValue
  token : Option String
  isMounted : Bool
  closed : Bool

/-- The calls recorded in the history of a run; `statusActive room` records
that a status request for `room` was answered with status `ACTIVE`. -/
inductive Action where
  | getMe (url : String)
  | getChatList (url : String)
  | getStatus (url : String)
  | statusActive (room : String)
  | setIsChatReady (b : Bool)
  | setTimeout (ms : Nat)
  | newWebSocket (id : Nat) (url : String)
  | wsClose (id : Nat)
  | wsSend (id : Nat)
  | setSocket (ws : Option Nat)
  | consoleError
  deriving DecidableEq

/-- The state of a mounted `Forum`: its hooks (lines 9-25), the token in
`localStorage`, the bookkeeping of its effects and the history of its calls. -/
structure Forum where
  authState : AuthState
  user : JSValue
  userVersion : Nat
  socket : Option Nat
  messages : List Message
  chats : List String
  selectedChat : String
  isChatReady : Bool
  token : Option String
  mounted : Bool
  authPending : Bool
  chatsInFlight : Nat
  interval : Bool
  chatsDeps : Option AuthState
  pollDeps : Option (String × AuthState)
  pollCleanup : Option Nat
  wsDeps : Option (AuthState × Nat × String × Bool)
  wsCleanup : Option Nat
  polls : List PollRun
  sockets : List WsRun
  log : List Action

/-- The component before its first commit (the initial values of lines 9-25). -/
def Forum.init (token : Option String) : Forum :=
  { authState := .loading, user := .null, userVersion := 0, socket := none,
    messages := [], chats := [], selectedChat := "main", isChatReady := false,
    token := token, mounted := false, authPending := false, chatsInFlight := 0,
    interval := false, chatsDeps := none, pollDeps := none, pollCleanup := none,
    wsDeps := none, wsCleanup := none, polls := [], sockets := [], log := [] }

/-- Replace the element at an index. -/
def updateAt {α : Type} (f : α → α) : Nat → List α → List α
  | _, [] => []
  | 0, x :: xs => f x :: xs
  | n + 1, x :: xs => x :: updateAt f n xs

/-- A call of `fetchChats` (lines 60-66). -/
def callFetchChats (env : Env) (s : Forum) : Forum :=
  if noToken s.token then s
  else { s with chatsInFlight := s.chatsInFlight + 1,
                log := s.log ++ [.getChatList (env.apiUrl ++ "/api/chat/list")] }

/-- Cleanup of effect 2 (line 81). -/
def chatsCleanupRun (s : Forum) : Forum := { s with interval := false }

/-- Cleanup of effect 4 (line 144). -/
def pollCleanupRun (s : Forum) : Forum :=
  match s.pollCleanup with
  | none => s
  | some i =>
    { s with polls := updateAt (fun p => { p with isMounted := false }) i s.polls,
             pollCleanup := none }

/-- Cleanup of effect 5 (lines 195-199). -/
def wsCleanupRun (s : Forum) : Forum :=
  match s.wsCleanup with
  | none => s
  | some i =>
    { s with sockets :=
               updateAt (fun w => { w with isMounted := false, closed := true }) i s.sockets,
             socket := none, wsCleanup := none,
             log := s.log ++ [.wsClose i, .setSocket none] }

/-- Body of effect 1 up to the call of `fetch` (lines 33-43, 56). -/
def authEffect (env : Env) (s : Forum) : Forum :=
  if noToken s.token then { s with authState := .unauthenticated }
  else { s with authPending := true,
                log := s.log ++ [.getMe (env.apiUrl ++ "/api/users/me")] }

/-- Body of effect 2 (lines 78-82) for the rendered `authState`. -/
def chatsEffect (env : Env) (authState : AuthState) (s : Forum) : Forum :=
  let s := { s with chatsDeps := some authState }
  if authState = .active then { callFetchChats env s with interval := true } else s

/-- Body of effect 4 (lines 120-144) for the rendered values. -/
def pollEffect (env : Env) (authState : AuthState) (selectedChat : String)
    (s : Forum) : Forum :=
  let s := { s with pollDeps := some (selectedChat, authState) }
  if authState ≠ .active ∨ selectedChat = "" then s
  else
    { s with isChatReady := false,
             polls := s.polls ++ [{ room := selectedChat, token := s.token,
                                    isMounted := true, phase := .fetching }],
             pollCleanup := some s.polls.length,
             log := s.log ++ [.setIsChatReady false,
                              .getStatus (statusUrl env.apiUrl selectedChat)] }

/-- Body of effect 5 (lines 149-159) for the rendered values. -/
def wsEffect (env : Env) (authState : AuthState) (user : JSValue) (userVersion : Nat)
    (selectedChat : String) (isChatReady : Bool) (s : Forum) : Forum :=
  let s := { s with wsDeps := some (authState, userVersion, selectedChat, isChatReady) }
  if authState ≠ .active ∨ user.truthy = false ∨ isChatReady = false then s
  else if VALID_NAME_REGEX.test selectedChat.data = false then
    { s with log := s.log ++ [.consoleError] }
  else
    { s with messages := [],
             sockets := s.sockets ++ [{ room := selectedChat, user := user, token := s.token,
                                        isMounted := true, closed := false }],
             wsCleanup := some s.sockets.length,
             log := s.log ++ [.newWebSocket s.sockets.length
                                (socketUrl env.wsUrl selectedChat)] }

/-- Run `f` when `b` holds. -/
def runIf (b : Bool) (f : Forum → Forum) (s : Forum) : Forum := if b then f s else s

/-- The first commit is done. -/
def markMounted (s : Forum) : Forum := { s with mounted := true }

/-- One render and its effects: the cleanups of the effects whose dependencies
changed, then the bodies of these effects (and of effect 1 on the first
commit), each body with the values of the render `s`. -/
def commit (env : Env) (s : Forum) : Forum :=
  let chatsChanged := decide (s.chatsDeps ≠ some s.authState)
  let pollChanged := decide (s.pollDeps ≠ some (s.selectedChat, s.authState))
  let wsChanged :=
    decide (s.wsDeps ≠ some (s.authState, s.userVersion, s.selectedChat, s.isChatReady))
  let cleaned :=
    runIf wsChanged wsCleanupRun
      (runIf pollChanged pollCleanupRun (runIf chatsChanged chatsCleanupRun s))
  markMounted
    (runIf wsChanged
      (wsEffect env s.authState s.user s.userVersion s.selectedChat s.isChatReady)
      (runIf pollChanged (pollEffect env s.authState s.selectedChat)
        (runIf chatsChanged (chatsEffect env s.authState)
          (runIf (!s.mounted) (authEffect env) cleaned))))

/-- The setters called by `fetchUser`, applied to the state. -/
def applyAuthCalls : List AuthCall → Forum → Forum
  | [], s => s
  | .getMe _ _ :: rest, s => applyAuthCalls rest s
  | .removeToken :: rest, s => applyAuthCalls rest { s with token := none }
  | .setUser u :: rest, s =>
    applyAuthCalls rest
      { s with user := u,
               userVersion := if s.user.strictEq u then s.userVersion else s.userVersion + 1 }
  | .setAuthState a :: rest, s => applyAuthCalls rest { s with authState := a }

/-- The calls of `checkStatus` of poll run `i`, applied to the state. -/
def applyPollCalls (i : Nat) : List PollCall → Forum → Forum
  | [], s => s
  | .setIsChatReady b :: rest, s =>
    applyPollCalls i rest { s with isChatReady := b, log := s.log ++ [.setIsChatReady b] }
  | .setTimeout ms :: rest, s =>
    applyPollCalls i rest
      { s with polls := updateAt (fun p => { p with phase := .waiting }) i s.polls,
               log := s.log ++ [.setTimeout ms] }
  | .consoleError :: rest, s =>
    applyPollCalls i rest { s with log := s.log ++ [.consoleError] }

/-- Whether a status request was answered with status `ACTIVE`. -/
def answeredActive : StatusOutcome → Bool
  | .response (some data) =>
    match data.getProp "status" with
    | some status => status.strictEq (.str "ACTIVE")
    | none => false
  | _ => false

/-- What can happen to a mounted `Forum`. -/
inductive Event where
  /-- A render and its effects. -/
  | commit
  /-- The request of `fetchUser` ends. -/
  | authResponded (outcome : AuthOutcome)
  /-- The interval of line 80 fires. -/
  | intervalTick
  /-- The handler `handleCreateChat` reaches `await fetchChats()` (line 106). -/
  | chatCreated
  /-- A request of `fetchChats` ends. -/
  | chatsResponded (outcome : ChatsOutcome)
  /-- A click on an entry of the chat list (line 233). -/
  | clickChat (chat : String)
  /-- The status request of poll run `run` ends. -/
  | statusResponded (run : Nat) (outcome : StatusOutcome)
  /-- The timer of line 136 set by poll run `run` fires. -/
  | timerFired (run : Nat)
  /-- The `open` event of socket `ws`. -/
  | wsOpened (ws : Nat)
  /-- A `message` event of socket `ws`; `frame` is `JSON.parse(event.data)`. -/
  | wsMessage (ws : Nat) (frame : Option JSValue) (clock : Nat → Nat)

/-- Whether the chat list and the modal are rendered (lines 216-221). -/
def Forum.showsChats (s : Forum) : Bool :=
  s.authState == .active || s.authState == .locked

/-- One step of the component. An event that cannot happen in a state leaves
it as it is. -/
def step (env : Env) (s : Forum) : Event → Forum
  | .commit => commit env s
  | .authResponded outcome =>
    if s.authPending then
      applyAuthCalls (fetchUserDone outcome) { s with authPending := false }
    else s
  | .intervalTick => if s.interval then callFetchChats env s else s
  | .chatCreated => if s.showsChats then callFetchChats env s else s
  | .chatsResponded outcome =>
    if 0 < s.chatsInFlight then
      let s := { s with chatsInFlight := s.chatsInFlight - 1 }
      match fetchChatsDone outcome with
      | some cleanChats => { s with chats := cleanChats }
      | none => s
    else s
  | .clickChat chat =>
    if s.showsChats ∧ chat ∈ s.chats then { s with selectedChat := chat } else s
  | .statusResponded i outcome =>
    match s.polls[i]? with
    | none => s
    | some p =>
      if p.phase = .fetching then
        applyPollCalls i (checkStatusDone p.isMounted outcome)
          { s with polls := updateAt (fun p => { p with phase := .idle }) i s.polls,
                   log := s.log ++ (if answeredActive outcome then [.statusActive p.room]
                                    else []) }
      else s
  | .timerFired i =>
    match s.polls[i]? with
    | none => s
    | some p =>
      if p.phase = .waiting then
        { s with polls := updateAt (fun p => { p with phase := .fetching }) i s.polls,
                 log := s.log ++ [.getStatus (statusUrl env.apiUrl p.room)] }
      else s
  | .wsOpened i =>
    match s.sockets[i]? with
    | none => s
    | some w =>
      if w.isMounted then
        { s with socket := some i, log := s.log ++ [.setSocket (some i), .wsSend i] }
      else s
  | .wsMessage i frame clock =>
    match s.sockets[i]? with
    | none => s
    | some w => { s with messages := onmessage w.isMounted w.user clock frame s.messages }

/-- The state after a sequence of events, from the first mount. -/
def run (env : Env) (token : Option String) (events : List Event) : Forum :=
  events.foldl (step env) (Forum.init token)

/-- What the history says about sockets while it is read: the socket that is
constructed and not closed, the last argument of `setSocket`, and whether every
socket so far was constructed with no other one open and the socket state null. -/
structure WsTrack where
  live : Option Nat
  sock : Option Nat
  ok : Bool

/-- Reading one call of the history. -/
def trackStep (t : WsTrack) : Action → WsTrack
  | .newWebSocket id _ =>
    { live := some id, sock := t.sock, ok := t.ok && t.live.isNone && t.sock.isNone }
  | .wsClose id => { t with live := if t.live = some id then none else t.live }
  | .setSocket v => { t with sock := v }
  | _ => t

/-- Reading a whole history. -/
def track (log : List Action) : WsTrack := log.foldl trackStep ⟨none, none, true⟩

/-- Every `new WebSocket` of the history comes after `close()` on the socket
constructed before it and with the last `setSocket`, if any, being
`setSocket(null)`. -/
def closesBeforeOpens (log : List Action) : Bool := (track log).ok

/-- The sockets constructed so far on which `close()` was not called. -/
def Forum.openSockets (s : Forum) : List WsRun := s.sockets.filter (fun w => !w.closed)

/-- A socket for `url` is constructed at some point of the history with no
earlier record of an `ACTIVE` answer for `room`. -/
def opensBeforeActive (room url : String) : List Action → Bool
  | [] => false
  | .statusActive r :: rest => if r = room then false else opensBeforeActive room url rest
  | .newWebSocket _ u :: rest => if u = url then true else opensBeforeActive room url rest
  | _ :: rest => opensBeforeActive room url rest

/-! ## Invariants of the socket effect -/

/-- The socket bookkeeping agrees with the history: the socket that the history
leaves open is the one the pending cleanup will close, the socket state is null
or that socket, and every other socket was closed with its run unmounted. -/
def WsInv (s : Forum) : Prop :=
  track s.log = ⟨s.wsCleanup, s.socket, true⟩ ∧
  (∀ i w, s.sockets[i]? = some w → (w.closed = false ∨ w.isMounted = true) →
    s.wsCleanup = some i) ∧
  (s.socket = none ∨ s.socket = s.wsCleanup)

/-- Two states with the same sockets, socket state, pending socket cleanup and
socket history. -/
def SameWs (s t : Forum) : Prop :=
  t.sockets = s.sockets ∧ t.socket = s.socket ∧ t.wsCleanup = s.wsCleanup ∧
  track t.log = track s.log

/-! ## Concrete runs -/

/-- The deployment of `config.js` with `VITE_API_URL` unset. -/
def defaultEnv : Env := { apiUrl := API_URL none, wsUrl := WS_URL none }

/-- A body of `/api/users/me` for an active user. -/
def sampleUser : JSValue :=
  .obj [("username", .str "ala"), ("is_active", .bool true)]

/-- A status response `{"status": "ACTIVE"}`. -/
def activeStatus : StatusOutcome :=
  .response (some (.obj [("status", .str "ACTIVE")]))

/-- A frame `{"type": "message", ...}` sent by `ala`. -/
def sampleFrame : JSValue :=
  .obj [("type", .str "message"), ("message", .str "hej"),
        ("username", .str "ala"), ("timestamp", .str "2025-01-01T12:00:00")]

/-- A session: the component mounts with a token, the user is active, room
`main` becomes ready and its socket opens, the chat list arrives with a second
room `b`, and the user clicks `b`. -/
def roomChangeEvents : List Event :=
  [.commit, .authResponded (.response 200 (some sampleUser)), .commit,
   .statusResponded 0 activeStatus, .commit, .wsOpened 0,
   .chatsResponded (.response true (some (.arr [.str "chat_main", .str "chat_b"]))),
   .commit, .clickChat "b", .commit]

/-- A session: the component mounts with a token, the user is active, the chat
list arrives with the entry `chat_a b`, and the user clicks it. -/
def invalidNameEvents : List Event :=
  [.commit, .authResponded (.response 200 (some sampleUser)), .commit,
   .chatsResponded (.response true (some (.arr [.str "chat_a b"]))), .commit,
   .clickChat "a b", .commit]

/-- A session: the component mounts with a token, the user is active, and the
first status request for `main` fails. -/
def failedPollEvents : List Event :=
  [.commit, .authResponded (.response 200 (some sampleUser)), .commit,
   .statusResponded 0 .fetchFailed, .commit]

/-! # Theorems -/

/-! ## Strings -/

theorem replaceFirst_absent (pat rep : List Char) (hp : pat ≠ []) :
    ∀ s, occursIn pat s = false → replaceFirst pat rep s = s := by
  intro s
  induction s with
  | nil => intro _; cases pat <;> simp_all [replaceFirst]
  | cons c cs ih =>
    intro h
    simp only [occursIn, Bool.or_eq_false_iff] at h
    simp [replaceFirst, h.1, ih h.2]

theorem replace_https_scheme (rest : List Char)
    (h : occursIn "http://".data rest = false) :
    replaceFirst "http://".data "ws://".data
      (replaceFirst "https://".data "wss://".data ("https://".data ++ rest)) =
      "wss://".data ++ rest := by
  have e1 : "https://".data = ['h','t','t','p','s',':','/','/'] := rfl
  have e2 : "http://".data = ['h','t','t','p',':','/','/'] := rfl
  have e3 : "wss://".data = ['w','s','s',':','/','/'] := rfl
  have e4 : "ws://".data = ['w','s',':','/','/'] := rfl
  rw [e2] at h
  rw [e1, e2, e3, e4]
  simp [replaceFirst, List.isPrefixOf]
  exact replaceFirst_absent _ _ (by simp) _ h

theorem replace_http_scheme (rest : List Char)
    (h : occursIn "https://".data rest = false) :
    replaceFirst "http://".data "ws://".data
      (replaceFirst "https://".data "wss://".data ("http://".data ++ rest)) =
      "ws://".data ++ rest := by
  have e1 : "https://".data = ['h','t','t','p','s',':','/','/'] := rfl
  have e2 : "http://".data = ['h','t','t','p',':','/','/'] := rfl
  have e3 : "wss://".data = ['w','s','s',':','/','/'] := rfl
  have e4 : "ws://".data = ['w','s',':','/','/'] := rfl
  rw [e1] at h
  rw [e1, e2, e3, e4]
  have h2 := replaceFirst_absent ['h','t','t','p','s',':','/','/']
    ['w','s','s',':','/','/'] (by simp) _ h
  simp [replaceFirst, List.isPrefixOf, h2]

/-! ## `config.js` -/

/-- C10, as stated, fails: with `VITE_API_URL = 'https://a/http://b'` the value of
`API_URL` is `'https://'` followed by `'a/http://b'`, but `WS_URL` is
`'wss://a/ws://b'`, not `'wss://'` followed by `'a/http://b'`: the second
`replace` rewrites the `http://` inside the rest. -/
theorem wsUrl_rewrites_inner_scheme :
    API_URL (some "https://a/http://b") = "https://" ++ "a/http://b" ∧
    WS_URL (some "https://a/http://b") = "wss://a/ws://b" ∧
    WS_URL (some "https://a/http://b") ≠ "wss://" ++ "a/http://b" := by
  decide

/-- C10, amended: `WS_URL` is `API_URL` with only its scheme changed whenever
the rest holds no further scheme: if `API_URL` is `'https://'` followed by a
`rest` that does not contain `'http://'` then `WS_URL` is `'wss://'` followed by
`rest`; if `API_URL` is `'http://'` followed by a `rest` that does not contain
`'https://'` then `WS_URL` is `'ws://'` followed by `rest`; and when
`VITE_API_URL` is unset or empty, `API_URL` is `'https://rybmw.space'` and
`WS_URL` is `'wss://rybmw.space'`. -/
theorem wsUrl_scheme_only :
    (∀ (v : Option String) (rest : String), API_URL v = "https://" ++ rest →
      jsIncludes rest "http://" = false → WS_URL v = "wss://" ++ rest) ∧
    (∀ (v : Option String) (rest : String), API_URL v = "http://" ++ rest →
      jsIncludes rest "https://" = false → WS_URL v = "ws://" ++ rest) ∧
    (∀ v : Option String, v = none ∨ v = some "" →
      API_URL v = "https://rybmw.space" ∧ WS_URL v = "wss://rybmw.space") := by
  refine ⟨?_, ?_, ?_⟩
  · intro v rest hv h
    unfold WS_URL jsReplace
    rw [hv]
    apply String.ext
    simp only [String.data_append]
    exact replace_https_scheme rest.data h
  · intro v rest hv h
    unfold WS_URL jsReplace
    rw [hv]
    apply String.ext
    simp only [String.data_append]
    exact replace_http_scheme rest.data h
  · rintro v (rfl | rfl) <;> decide

/-- C10, amended, at `VITE_API_URL = 'http://localhost:8000'`. -/
theorem wsUrl_scheme_only_witness :
    WS_URL (some "http://localhost:8000") = "ws://" ++ "localhost:8000" :=
  wsUrl_scheme_only.2.1 (some "http://localhost:8000") "localhost:8000"
    (by decide) (by decide)

/-! ## Regular expressions: `test` decides `Matches` -/

namespace RE

theorem matches_cat_iff {a b : RE} {s : List Char} :
    Matches (cat a b) s ↔ ∃ u v, s = u ++ v ∧ Matches a u ∧ Matches b v := by
  constructor
  · intro h; cases h with
    | cat h1 h2 => exact ⟨_, _, rfl, h1, h2⟩
  · rintro ⟨u, v, rfl, h1, h2⟩; exact Matches.cat h1 h2

theorem matches_alt_iff {a b : RE} {s : List Char} :
    Matches (alt a b) s ↔ Matches a s ∨ Matches b s := by
  constructor
  · intro h; cases h with
    | altL h => exact Or.inl h
    | altR h => exact Or.inr h
  · rintro (h | h)
    · exact Matches.altL h
    · exact Matches.altR h

theorem matches_cls_iff {p : Char → Bool} {s : List Char} :
    Matches (cls p) s ↔ ∃ c, s = [c] ∧ p c = true := by
  constructor
  · intro h; cases h with
    | cls h => exact ⟨_, rfl, h⟩
  · rintro ⟨c, rfl, h⟩; exact Matches.cls h

theorem not_matches_empty {s : List Char} : ¬ Matches empty s := by
  intro h; cases h

theorem matches_eps_iff {s : List Char} : Matches eps s ↔ s = [] := by
  constructor
  · intro h; cases h; rfl
  · rintro rfl; exact Matches.eps

theorem nullable_iff (r : RE) : nullable r = true ↔ Matches r [] := by
  induction r with
  | empty => simp [nullable, not_matches_empty]
  | eps => simp [nullable, matches_eps_iff]
  | cls p => simp [nullable, matches_cls_iff]
  | cat a b iha ihb =>
    simp only [nullable, Bool.and_eq_true, iha, ihb, matches_cat_iff]
    constructor
    · rintro ⟨h1, h2⟩; exact ⟨[], [], rfl, h1, h2⟩
    · rintro ⟨u, v, h, h1, h2⟩
      obtain ⟨hu, hv⟩ := List.append_eq_nil.1 h.symm
      subst hu hv; exact ⟨h1, h2⟩
  | alt a b iha ihb => simp [nullable, iha, ihb, matches_alt_iff]
  | star a _ => simp only [nullable, true_iff]; exact Matches.starNil

theorem star_cons_split {a : RE} {w : List Char} (h : Matches (star a) w) :
    ∀ c s, w = c :: s → ∃ u v, s = u ++ v ∧ Matches a (c :: u) ∧ Matches (star a) v := by
  generalize hr : star a = r at h
  induction h with
  | eps => cases hr
  | cls _ => cases hr
  | cat _ _ => cases hr
  | altL _ => cases hr
  | altR _ => cases hr
  | starNil => intro c s h; cases h
  | @starCons a' u v h1 h2 _ ih2 =>
    cases hr
    intro c s hw
    cases u with
    | nil => exact ih2 rfl c s (by simpa using hw)
    | cons d u' =>
      simp only [List.cons_append, List.cons.injEq] at hw
      obtain ⟨rfl, rfl⟩ := hw
      exact ⟨u', v, rfl, h1, h2⟩

theorem deriv_iff (r : RE) : ∀ (c : Char) (s : List Char),
    Matches (deriv r c) s ↔ Matches r (c :: s) := by
  induction r with
  | empty => intro c s; simp [deriv, not_matches_empty]
  | eps => intro c s; simp [deriv, not_matches_empty, matches_eps_iff]
  | cls p =>
    intro c s
    by_cases hp : p c = true
    · rw [deriv, if_pos hp, matches_eps_iff, matches_cls_iff]
      constructor
      · rintro rfl; exact ⟨c, rfl, hp⟩
      · rintro ⟨d, h, _⟩
        exact (List.cons.inj h).2
    · rw [deriv, if_neg hp, matches_cls_iff]
      constructor
      · intro h; exact absurd h not_matches_empty
      · rintro ⟨d, h, hd⟩
        obtain ⟨rfl, _⟩ := List.cons.inj h
        exact absurd hd hp
  | cat a b iha ihb =>
    intro c s
    have key : Matches (cat a b) (c :: s) ↔
        (∃ u v, s = u ++ v ∧ Matches a (c :: u) ∧ Matches b v) ∨
        (Matches a [] ∧ Matches b (c :: s)) := by
      rw [matches_cat_iff]
      constructor
      · rintro ⟨u, v, h, h1, h2⟩
        cases u with
        | nil => right; simp only [List.nil_append] at h; subst h; exact ⟨h1, h2⟩
        | cons d u' =>
          simp only [List.cons_append, List.cons.injEq] at h
          obtain ⟨rfl, rfl⟩ := h
          exact Or.inl ⟨u', v, rfl, h1, h2⟩
      · rintro (⟨u, v, rfl, h1, h2⟩ | ⟨h1, h2⟩)
        · exact ⟨c :: u, v, rfl, h1, h2⟩
        · exact ⟨[], c :: s, rfl, h1, h2⟩
    rw [key]
    by_cases hn : nullable a = true
    · rw [deriv, if_pos hn]
      simp only [matches_alt_iff, matches_cat_iff, iha, ihb]
      have := (nullable_iff a).1 hn
      simp [this]
    · rw [deriv, if_neg hn]
      simp only [matches_cat_iff, iha]
      have : ¬ Matches a [] := fun h => hn ((nullable_iff a).2 h)
      simp [this]
  | alt a b iha ihb => intro c s; simp [deriv, matches_alt_iff, iha, ihb]
  | star a iha =>
    intro c s
    simp only [deriv, matches_cat_iff, iha]
    constructor
    · rintro ⟨u, v, rfl, h1, h2⟩
      exact Matches.starCons h1 h2
    · intro h
      exact star_cons_split h c s rfl

theorem test_iff (s : List Char) : ∀ r : RE, test r s = true ↔ Matches r s := by
  induction s with
  | nil => intro r; simpa [test] using nullable_iff r
  | cons c s ih =>
    intro r
    have := ih (deriv r c)
    simp only [test, List.foldl_cons] at this ⊢
    rw [this, deriv_iff]

theorem matches_star_cls {p : Char → Bool} (s : List Char) :
    Matches (star (cls p)) s ↔ ∀ c ∈ s, p c = true := by
  constructor
  · intro h
    generalize hr : star (cls p) = r at h
    induction h with
    | eps => cases hr
    | cls _ => cases hr
    | cat _ _ => cases hr
    | altL _ => cases hr
    | altR _ => cases hr
    | starNil => simp
    | starCons h1 _ _ ih2 =>
      cases hr
      obtain ⟨d, rfl, hd⟩ := matches_cls_iff.1 h1
      intro c hc
      simp only [List.singleton_append, List.mem_cons] at hc
      rcases hc with rfl | hc
      · exact hd
      · exact ih2 rfl c hc
  · induction s with
    | nil => intro _; exact Matches.starNil
    | cons c s ih =>
      intro h
      have h1 : Matches (cls p) [c] := Matches.cls (h c (by simp))
      exact Matches.starCons h1 (ih (fun d hd => h d (by simp [hd])))

theorem matches_plus_cls {p : Char → Bool} (s : List Char) :
    Matches (plus (cls p)) s ↔ s ≠ [] ∧ ∀ c ∈ s, p c = true := by
  unfold plus
  rw [matches_cat_iff]
  constructor
  · rintro ⟨u, v, rfl, h1, h2⟩
    obtain ⟨d, rfl, hd⟩ := matches_cls_iff.1 h1
    refine ⟨by simp, ?_⟩
    intro c hc
    simp only [List.singleton_append, List.mem_cons] at hc
    rcases hc with rfl | hc
    · exact hd
    · exact (matches_star_cls v).1 h2 c hc
  · rintro ⟨hne, h⟩
    cases s with
    | nil => exact absurd rfl hne
    | cons c s =>
      exact ⟨[c], s, rfl, Matches.cls (h c (by simp)),
        (matches_star_cls s).2 (fun d hd => h d (by simp [hd]))⟩

theorem matches_chr_iff {c : Char} {s : List Char} : Matches (chr c) s ↔ s = [c] := by
  unfold chr
  rw [matches_cls_iff]
  constructor
  · rintro ⟨d, rfl, hd⟩
    simp only [beq_iff_eq] at hd
    rw [hd]
  · rintro rfl
    exact ⟨c, rfl, by simp⟩

end RE

/-! ## `Register.jsx` -/

theorem notSpaceNorAt_iff (c : Char) :
    notSpaceNorAt c = true ↔ isJsWhitespace c = false ∧ c ≠ '@' := by
  simp [notSpaceNorAt]

/-- The shape of the inputs accepted by `emailRegex`. -/
theorem emailRegex_matches_iff (s : List Char) :
    RE.Matches emailRegex s ↔
      ∃ l a b, s = l ++ '@' :: (a ++ '.' :: b) ∧
        (l ≠ [] ∧ ∀ c ∈ l, notSpaceNorAt c = true) ∧
        (a ≠ [] ∧ ∀ c ∈ a, notSpaceNorAt c = true) ∧
        (b ≠ [] ∧ ∀ c ∈ b, notSpaceNorAt c = true) := by
  unfold emailRegex
  simp only [RE.matches_cat_iff, RE.matches_plus_cls, RE.matches_chr_iff]
  constructor
  · rintro ⟨l, _, rfl, hl, _, _, rfl, rfl, a, _, rfl, ha, _, b, rfl, rfl, hb⟩
    exact ⟨l, a, b, by simp, hl, ha, hb⟩
  · rintro ⟨l, a, b, rfl, hl, ha, hb⟩
    exact ⟨l, _, rfl, hl, _, _, rfl, rfl, a, _, rfl, ha, _, b, rfl, rfl, hb⟩

theorem split_at_index (d : List Char) (i : Nat) (x : Char) (h : d[i]? = some x) :
    d = d.take i ++ x :: d.drop (i + 1) := by
  induction d generalizing i with
  | nil => simp at h
  | cons y ys ih =>
    cases i with
    | zero => simp at h; simp [h]
    | succ n =>
      simp only [List.getElem?_cons_succ] at h
      simp only [List.take_succ_cons, List.drop_succ_cons, List.cons_append, List.cons.injEq,
        true_and]
      exact ih n h

theorem emailSpec_of_shape (l a b : List Char)
    (hl : l ≠ [] ∧ ∀ c ∈ l, notSpaceNorAt c = true)
    (ha : a ≠ [] ∧ ∀ c ∈ a, notSpaceNorAt c = true)
    (hb : b ≠ [] ∧ ∀ c ∈ b, notSpaceNorAt c = true) :
    emailSpec (l ++ '@' :: (a ++ '.' :: b)) := by
  have hws : ∀ x : List Char, (∀ c ∈ x, notSpaceNorAt c = true) →
      ∀ c ∈ x, isJsWhitespace c = false :=
    fun x hx c hc => ((notSpaceNorAt_iff c).1 (hx c hc)).1
  have hat : ∀ x : List Char, (∀ c ∈ x, notSpaceNorAt c = true) → x.count '@' = 0 := by
    intro x hx
    rw [List.count_eq_zero]
    intro hmem
    exact ((notSpaceNorAt_iff _).1 (hx _ hmem)).2 rfl
  refine ⟨?_, ?_, l, a ++ '.' :: b, rfl, hl.1, a.length, ?_, ?_, ?_⟩
  · intro c hc
    simp only [List.mem_append, List.mem_cons] at hc
    rcases hc with hc | rfl | hc | rfl | hc
    · exact hws l hl.2 c hc
    · decide
    · exact hws a ha.2 c hc
    · decide
    · exact hws b hb.2 c hc
  · simp only [List.count_append, List.count_cons, hat l hl.2, hat a ha.2, hat b hb.2]
    decide
  · exact List.length_pos.2 ha.1
  · have := List.length_pos.2 hb.1
    simp only [List.length_append, List.length_cons]
    omega
  · rw [List.getElem?_append_right (le_refl _)]
    simp

theorem shape_of_emailSpec (s : List Char) (h : emailSpec s) :
    ∃ l a b, s = l ++ '@' :: (a ++ '.' :: b) ∧
      (l ≠ [] ∧ ∀ c ∈ l, notSpaceNorAt c = true) ∧
      (a ≠ [] ∧ ∀ c ∈ a, notSpaceNorAt c = true) ∧
      (b ≠ [] ∧ ∀ c ∈ b, notSpaceNorAt c = true) := by
  obtain ⟨hws, hcount, l, d, rfl, hl, i, hi0, hi1, hdot⟩ := h
  have hc : l.count '@' + (d.count '@' + 1) = 1 := by
    simpa [List.count_append, List.count_cons] using hcount
  have hl0 : '@' ∉ l := by
    rw [← List.count_eq_zero]; omega
  have hd0 : '@' ∉ d := by
    rw [← List.count_eq_zero]; omega
  have hd := split_at_index d i '.' hdot
  have good : ∀ x : List Char, (∀ c ∈ x, c ∈ l ++ '@' :: d) → '@' ∉ x →
      ∀ c ∈ x, notSpaceNorAt c = true := by
    intro x hx hnot c hcx
    rw [notSpaceNorAt_iff]
    refine ⟨hws c (hx c hcx), ?_⟩
    rintro rfl
    exact hnot hcx
  refine ⟨l, d.take i, d.drop (i + 1), ?_, ⟨hl, ?_⟩, ⟨?_, ?_⟩, ⟨?_, ?_⟩⟩
  · rw [← hd]
  · exact good l (fun c hc => by simp [hc]) hl0
  · intro h0
    have := congrArg List.length h0
    simp only [List.length_take, List.length_nil] at this
    omega
  · exact good _ (fun c hc => by simp [List.mem_of_mem_take hc])
      (fun hc => hd0 (List.mem_of_mem_take hc))
  · intro h0
    have := congrArg List.length h0
    simp only [List.length_drop, List.length_nil] at this
    omega
  · exact good _ (fun c hc => by simp [List.mem_of_mem_drop hc])
      (fun hc => hd0 (List.mem_of_mem_drop hc))

/-- C9: `isValidEmail(s)` returns true if and only if `s` contains no
whitespace character (the characters of `\s`), contains exactly one `@`, has at
least one character before the `@`, and the part after the `@` contains a `.`
that is neither its first nor its last character; for every other string it
returns false. -/
theorem isValidEmail_iff (email : String) :
    (isValidEmail email = true ↔ emailSpec email.data) ∧
    (¬ emailSpec email.data → isValidEmail email = false) := by
  have key : isValidEmail email = true ↔ emailSpec email.data := by
    unfold isValidEmail
    rw [RE.test_iff, emailRegex_matches_iff]
    constructor
    · rintro ⟨l, a, b, h, hl, ha, hb⟩
      rw [h]
      exact emailSpec_of_shape l a b hl ha hb
    · exact shape_of_emailSpec _
  refine ⟨key, fun h => ?_⟩
  cases hv : isValidEmail email
  · rfl
  · exact absurd (key.1 hv) h

/-- C9 at two inputs: an address is accepted, and one whose only `.` ends the
part after the `@` is rejected. -/
theorem isValidEmail_iff_witness :
    isValidEmail "jan@rybmw.space" = true ∧ isValidEmail "jan@rybmw." = false := by
  refine ⟨(isValidEmail_iff "jan@rybmw.space").1.2 ?_, (isValidEmail_iff "jan@rybmw.").2 ?_⟩
  · exact emailSpec_of_shape "jan".data "rybmw".data "space".data
      (by decide) (by decide) (by decide)
  · intro h
    have := (isValidEmail_iff "jan@rybmw.").1.2 h
    revert this
    decide

/-- C8: `Register.handleSubmit` sends the registration request if and only if
`username` has at least 3 characters (`username.length`, UTF-16 code units),
`isValidEmail(email)` holds, `password` has at least 12 characters and
`password` equals `confirmPassword`; when some check fails, no request is
sent, `setIsLoading` is not called (so `isLoading` stays false), and `error` is
set to the message of the first failing check in the order username, email,
password length, password confirmation. -/
theorem handleSubmit_validation (apiUrl : String) (f : RegisterForm)
    (outcome : RegisterOutcome) :
    ((handleSubmit apiUrl f outcome).any RegisterCall.isRequest = true ↔
      3 ≤ jsLength f.username ∧ isValidEmail f.email = true ∧
      12 ≤ jsLength f.password ∧ f.password = f.confirmPassword) ∧
    (3 ≤ jsLength f.username → isValidEmail f.email = true →
      12 ≤ jsLength f.password → f.password = f.confirmPassword →
      RegisterCall.postRegister (apiUrl ++ "/api/register") f.username f.email f.password
        ∈ handleSubmit apiUrl f outcome) ∧
    (jsLength f.username < 3 →
      handleSubmit apiUrl f outcome =
        [.preventDefault, .setError "",
         .setError "Nazwa użytkownika musi mieć minimum 3 znaki"]) ∧
    (3 ≤ jsLength f.username → isValidEmail f.email = false →
      handleSubmit apiUrl f outcome =
        [.preventDefault, .setError "", .setError "Podaj prawidłowy adres email"]) ∧
    (3 ≤ jsLength f.username → isValidEmail f.email = true →
      jsLength f.password < 12 →
      handleSubmit apiUrl f outcome =
        [.preventDefault, .setError "", .setError "Hasło musi mieć minimum 12 znaków"]) ∧
    (3 ≤ jsLength f.username → isValidEmail f.email = true →
      12 ≤ jsLength f.password → f.password ≠ f.confirmPassword →
      handleSubmit apiUrl f outcome =
        [.preventDefault, .setError "", .setError "Hasła nie są takie same"]) ∧
    (¬ (3 ≤ jsLength f.username ∧ isValidEmail f.email = true ∧
        12 ≤ jsLength f.password ∧ f.password = f.confirmPassword) →
      isLoadingAfter false (handleSubmit apiUrl f outcome) = false ∧
      errorAfter "" (handleSubmit apiUrl f outcome) ≠ "") := by
  by_cases h1 : jsLength f.username < 3
  · have e : handleSubmit apiUrl f outcome =
        [.preventDefault, .setError "",
         .setError "Nazwa użytkownika musi mieć minimum 3 znaki"] := by
      simp [handleSubmit, h1]
    rw [e]
    refine ⟨?_, ?_, ?_, ?_, ?_, ?_, ?_⟩ <;>
      first
        | (intros; omega)
        | (intros; rfl)
        | (intro _; exact ⟨rfl, by decide⟩)
        | (simp [RegisterCall.isRequest]; intro h; omega)
  · by_cases h2 : isValidEmail f.email = true
    · by_cases h3 : jsLength f.password < 12
      · have e : handleSubmit apiUrl f outcome =
            [.preventDefault, .setError "",
             .setError "Hasło musi mieć minimum 12 znaków"] := by
          simp [handleSubmit, h1, h2, h3]
        rw [e]
        refine ⟨?_, ?_, ?_, ?_, ?_, ?_, ?_⟩ <;>
          first
            | (intros; omega)
            | (intros; rfl)
            | (intro _; exact ⟨rfl, by decide⟩)
            | (intros; simp_all; done)
            | (simp [RegisterCall.isRequest]; intros; omega)
      · by_cases h4 : f.password = f.confirmPassword
        · have e : handleSubmit apiUrl f outcome =
              [.preventDefault, .setError "", .setIsLoading true,
               .postRegister (apiUrl ++ "/api/register") f.username f.email f.password] ++
              (match outcome with
               | .threw m => registerCatch m
               | .notOk m => registerCatch m
               | .ok => [.navigate "/login"]) ++
              [.setIsLoading false] := by
            have h4' : ¬ (f.password ≠ f.confirmPassword) := fun h => h h4
            unfold handleSubmit
            rw [if_neg h1, if_neg (by simp [h2]), if_neg h3, if_neg h4']
            simp
          rw [e]
          refine ⟨?_, ?_, ?_, ?_, ?_, ?_, ?_⟩
          · constructor
            · intro _; exact ⟨by omega, h2, by omega, h4⟩
            · intro _; simp [RegisterCall.isRequest]
          · intros; simp
          · intro h; omega
          · intro _ h; rw [h2] at h; exact absurd h (by decide)
          · intro _ _ h; omega
          · intro _ _ _ h; exact absurd h4 h
          · intro h; exact absurd ⟨by omega, h2, by omega, h4⟩ h
        · have e : handleSubmit apiUrl f outcome =
              [.preventDefault, .setError "", .setError "Hasła nie są takie same"] := by
            simp [handleSubmit, h1, h2, h3, h4]
          rw [e]
          refine ⟨?_, ?_, ?_, ?_, ?_, ?_, ?_⟩ <;>
            first
              | (intros; omega)
              | (intros; rfl)
              | (intro _; exact ⟨rfl, by decide⟩)
              | (intros; simp_all; done)
              | (simp [RegisterCall.isRequest]; intros; assumption)
    · have h2' : isValidEmail f.email = false := by
        cases hv : isValidEmail f.email
        · rfl
        · exact absurd hv h2
      have e : handleSubmit apiUrl f outcome =
          [.preventDefault, .setError "", .setError "Podaj prawidłowy adres email"] := by
        simp [handleSubmit, h1, h2']
      rw [e]
      refine ⟨?_, ?_, ?_, ?_, ?_, ?_, ?_⟩ <;>
        first
          | (intros; omega)
          | (intros; rfl)
          | (intro _; exact ⟨rfl, by decide⟩)
          | (intros; simp_all; done)
          | (simp [RegisterCall.isRequest, h2'])

/-- C8 at a form whose password is too short: only the third message is set. -/
theorem handleSubmit_validation_witness :
    handleSubmit "https://rybmw.space"
        ⟨"ala", "ala@rybmw.space", "short", "short"⟩ .ok =
      [.preventDefault, .setError "", .setError "Hasło musi mieć minimum 12 znaków"] :=
  (handleSubmit_validation "https://rybmw.space"
      ⟨"ala", "ala@rybmw.space", "short", "short"⟩ .ok).2.2.2.2.1
    (by decide) (by decide) (by decide)

/-! ## `Forum.jsx`: create chat -/

theorem uint32_le_iff (a b : UInt32) : a ≤ b ↔ a.toNat ≤ b.toNat := Iff.rfl

theorem char_eq_iff (c d : Char) : c = d ↔ c.val.toNat = d.val.toNat := by
  constructor
  · rintro rfl; rfl
  · intro h
    exact Char.ext (UInt32.ext h)

theorem nameChar_iff (c : Char) : nameChar c = true ↔ specNameChar c := by
  simp only [nameChar, specNameChar, Char.isAlpha, Char.isUpper, Char.isLower, Char.isDigit,
    Bool.or_eq_true, Bool.and_eq_true, decide_eq_true_eq, beq_iff_eq, Char.le_def,
    uint32_le_iff, char_eq_iff, ge_iff_le]
  have a1 : 'a'.val.toNat = 97 := rfl
  have a2 : 'z'.val.toNat = 122 := rfl
  have a3 : 'A'.val.toNat = 65 := rfl
  have a4 : 'Z'.val.toNat = 90 := rfl
  have a5 : '0'.val.toNat = 48 := rfl
  have a6 : '9'.val.toNat = 57 := rfl
  have a7 : '-'.val.toNat = 45 := rfl
  have a8 : '_'.val.toNat = 95 := rfl
  have b1 : (97 : UInt32).toNat = 97 := rfl
  have b2 : (122 : UInt32).toNat = 122 := rfl
  have b3 : (65 : UInt32).toNat = 65 := rfl
  have b4 : (90 : UInt32).toNat = 90 := rfl
  have b5 : (48 : UInt32).toNat = 48 := rfl
  have b6 : (57 : UInt32).toNat = 57 := rfl
  simp only [a1, a2, a3, a4, a5, a6, a7, a8, b1, b2, b3, b4, b5, b6]
  omega

theorem validName_iff (s : String) :
    VALID_NAME_REGEX.test s.data = true ↔ s ≠ "" ∧ ∀ c ∈ s.data, specNameChar c := by
  unfold VALID_NAME_REGEX
  rw [RE.test_iff, RE.matches_plus_cls]
  have hs : s.data ≠ [] ↔ s ≠ "" := by
    constructor
    · intro h hc; exact h (by rw [hc])
    · intro h hc; exact h (String.ext hc)
  rw [hs]
  constructor
  · rintro ⟨h1, h2⟩; exact ⟨h1, fun c hc => (nameChar_iff c).1 (h2 c hc)⟩
  · rintro ⟨h1, h2⟩; exact ⟨h1, fun c hc => (nameChar_iff c).2 (h2 c hc)⟩

theorem createDone_no_request (outcome : CreateOutcome) :
    (createDone outcome).any CreateCall.isRequest = false := by
  unfold createDone
  split
  · rfl
  · rfl
  · rfl
  · split <;> rfl

/-- C2: `handleCreateChat` issues the POST create request if and only if the
whitespace-trimmed `newChatName` is non-empty and consists solely of ASCII
letters, digits, `-` and `_`, and the name placed in the request path is
exactly that trimmed name; for every non-empty trimmed name that does not
match, no request is issued, `isCreating` is never set, and `modalError` is set
to the validation message. -/
theorem handleCreateChat_validation (apiUrl : String) (token : Option String)
    (newChatName : String) (outcome : CreateOutcome) :
    ((handleCreateChat apiUrl token newChatName outcome).any CreateCall.isRequest = true ↔
      jsTrim newChatName ≠ "" ∧ ∀ c ∈ (jsTrim newChatName).data, specNameChar c) ∧
    (jsTrim newChatName ≠ "" → (∀ c ∈ (jsTrim newChatName).data, specNameChar c) →
      handleCreateChat apiUrl token newChatName outcome =
        [.setModalError (.str ""), .setIsCreating true,
         .postCreate (apiUrl ++ "/api/chat/create/" ++ jsTrim newChatName) (bearer token)] ++
        createDone outcome ++ [.setIsCreating false]) ∧
    (jsTrim newChatName ≠ "" → ¬ (∀ c ∈ (jsTrim newChatName).data, specNameChar c) →
      handleCreateChat apiUrl token newChatName outcome =
        [.setModalError (.str ""), .setModalError (.str invalidNameMessage)]) := by
  by_cases h0 : jsTrim newChatName = ""
  · have e : handleCreateChat apiUrl token newChatName outcome = [.setModalError (.str "")] := by
      simp [handleCreateChat, h0]
    rw [e]
    refine ⟨?_, fun h => absurd h0 h, fun h => absurd h0 h⟩
    constructor
    · intro h; exact absurd h (by decide)
    · intro h; exact absurd h0 h.1
  · by_cases hv : VALID_NAME_REGEX.test (jsTrim newChatName).data = true
    · have hv' := (validName_iff _).1 hv
      have e : handleCreateChat apiUrl token newChatName outcome =
          [.setModalError (.str ""), .setIsCreating true,
           .postCreate (apiUrl ++ "/api/chat/create/" ++ jsTrim newChatName) (bearer token)] ++
          createDone outcome ++ [.setIsCreating false] := by
        unfold handleCreateChat
        simp only [h0, if_false, hv, Bool.not_true, Bool.false_eq_true]
        simp
      rw [e]
      refine ⟨⟨fun _ => hv', fun _ => ?_⟩, fun _ _ => rfl, fun _ h => absurd hv'.2 h⟩
      simp [CreateCall.isRequest]
    · have hv' : ¬ (∀ c ∈ (jsTrim newChatName).data, specNameChar c) :=
        fun h => hv ((validName_iff _).2 ⟨h0, h⟩)
      have e : handleCreateChat apiUrl token newChatName outcome =
          [.setModalError (.str ""), .setModalError (.str invalidNameMessage)] := by
        unfold handleCreateChat
        simp only [h0, if_false, hv, Bool.not_false, if_true]
      rw [e]
      refine ⟨⟨fun h => ?_, fun h => absurd h.2 hv'⟩, fun _ h => absurd h hv', fun _ _ => rfl⟩
      exact absurd h (by decide)

/-- C2 at the name `' my room '`: the trimmed name holds a space, so only the
validation message is set. -/
theorem handleCreateChat_validation_witness :
    handleCreateChat "https://rybmw.space" (some "tok") " my room " .ok =
      [.setModalError (.str ""), .setModalError (.str invalidNameMessage)] :=
  (handleCreateChat_validation "https://rybmw.space" (some "tok") " my room " .ok).2.2
    (by decide)
    (fun h => absurd (h ' ' (by decide)) (by unfold specNameChar; decide))

/-! ## `Forum.jsx`: auth check -/

/-- C7, as stated, fails: with a token, a response of status 200 and the body
`null`, nothing is thrown by the request or by the parsing of the body and
`is_active` is not truthy, yet `authState` becomes `'unauthenticated'` rather
than `'locked'`: reading `is_active` of `null` throws into the `catch`. -/
theorem authCheck_null_body :
    noToken (some "tok") = false ∧ (200 : Nat) ≠ 401 ∧
    authStateAfter .loading
      (authCheck "https://rybmw.space" (some "tok") (.response 200 (some .null))) =
        .unauthenticated ∧
    authStateAfter .loading
      (authCheck "https://rybmw.space" (some "tok") (.response 200 (some .null))) ≠
        .locked := by
  decide

/-- C7, amended: the auth check sets `authState` as a function of the stored
token and the `/api/users/me` response: `'unauthenticated'` when there is no
token (none or the empty string), when the response status is 401 (in which
case the token is also removed from storage), when the request or body parsing
throws, or when the parsed body is `null` (reading `is_active` throws);
otherwise `'active'` if the returned user's `is_active` is truthy and
`'locked'` if not.  In particular `authState` becomes `'active'` only if a
token is present, the response status is not 401 and `is_active` is truthy,
and the token is removed only on a 401. -/
theorem authCheck_authState (apiUrl : String) (token : Option String)
    (outcome : AuthOutcome) :
    (noToken token = true →
      authCheck apiUrl token outcome = [.setAuthState .unauthenticated]) ∧
    (noToken token = false → outcome = .fetchFailed →
      authStateAfter .loading (authCheck apiUrl token outcome) = .unauthenticated ∧
      removesToken (authCheck apiUrl token outcome) = false) ∧
    (noToken token = false → ∀ body, outcome = .response 401 body →
      authStateAfter .loading (authCheck apiUrl token outcome) = .unauthenticated ∧
      removesToken (authCheck apiUrl token outcome) = true) ∧
    (noToken token = false → ∀ status, status ≠ 401 → outcome = .response status none →
      authStateAfter .loading (authCheck apiUrl token outcome) = .unauthenticated ∧
      removesToken (authCheck apiUrl token outcome) = false) ∧
    (noToken token = false → ∀ status, status ≠ 401 →
      outcome = .response status (some .null) →
      authStateAfter .loading (authCheck apiUrl token outcome) = .unauthenticated ∧
      removesToken (authCheck apiUrl token outcome) = false) ∧
    (noToken token = false → ∀ status userData isActive, status ≠ 401 →
      outcome = .response status (some userData) →
      userData.getProp "is_active" = some isActive →
      authStateAfter .loading (authCheck apiUrl token outcome) =
        (if isActive.truthy then .active else .locked) ∧
      removesToken (authCheck apiUrl token outcome) = false) ∧
    (authStateAfter .loading (authCheck apiUrl token outcome) = .active →
      noToken token = false ∧
      ∃ status userData isActive, outcome = .response status (some userData) ∧
        status ≠ 401 ∧ userData.getProp "is_active" = some isActive ∧
        isActive.truthy = true) ∧
    (removesToken (authCheck apiUrl token outcome) = true →
      ∃ body, outcome = .response 401 body) := by
  cases ht : noToken token
  · have e : authCheck apiUrl token outcome =
        .getMe (apiUrl ++ "/api/users/me") (bearer token) :: fetchUserDone outcome := by
      simp [authCheck, ht]
    rw [e]
    refine ⟨fun h => absurd h (by decide), ?_, ?_, ?_, ?_, ?_, ?_, ?_⟩
    · rintro _ rfl; exact ⟨rfl, rfl⟩
    · rintro _ body rfl
      simp [fetchUserDone, authStateAfter, removesToken]
    · rintro _ status hs rfl
      simp [fetchUserDone, authStateAfter, removesToken, hs]
    · rintro _ status hs rfl
      simp [fetchUserDone, authStateAfter, removesToken, hs, JSValue.getProp]
    · rintro _ status userData isActive hs rfl hp
      simp only [fetchUserDone, hs, if_false, hp, authStateAfter, removesToken]
      exact ⟨trivial, trivial⟩
    · intro h
      refine ⟨rfl, ?_⟩
      cases outcome with
      | fetchFailed => simp [fetchUserDone, authStateAfter] at h
      | response status body =>
        by_cases hs : status = 401
        · simp [fetchUserDone, authStateAfter, hs] at h
        · cases body with
          | none => simp [fetchUserDone, authStateAfter, hs] at h
          | some userData =>
            cases hp : userData.getProp "is_active" with
            | none => simp [fetchUserDone, authStateAfter, hs, hp] at h
            | some isActive =>
              refine ⟨status, userData, isActive, rfl, hs, hp, ?_⟩
              simp only [fetchUserDone, hs, if_false, hp, authStateAfter] at h
              cases hv : isActive.truthy
              · simp [hv] at h
              · rfl
    · intro h
      cases outcome with
      | fetchFailed => simp [fetchUserDone, removesToken] at h
      | response status body =>
        by_cases hs : status = 401
        · exact ⟨body, by rw [hs]⟩
        · cases body with
          | none => simp [fetchUserDone, removesToken, hs] at h
          | some userData =>
            cases hp : userData.getProp "is_active" <;>
              simp [fetchUserDone, removesToken, hs, hp] at h
  · have e : authCheck apiUrl token outcome = [.setAuthState .unauthenticated] := by
      simp [authCheck, ht]
    rw [e]
    refine ⟨fun _ => rfl, ?_, ?_, ?_, ?_, ?_, ?_, ?_⟩ <;>
      (intro h; exact absurd h (by decide))

/-- C7, amended, at a token and a 200 response whose user is active. -/
theorem authCheck_authState_witness :
    authStateAfter .loading
        (authCheck "https://rybmw.space" (some "tok") (.response 200 (some sampleUser))) =
      (if (JSValue.bool true).truthy then .active else .locked) ∧
    removesToken
        (authCheck "https://rybmw.space" (some "tok") (.response 200 (some sampleUser))) =
      false :=
  (authCheck_authState "https://rybmw.space" (some "tok")
      (.response 200 (some sampleUser))).2.2.2.2.2.1
    (by decide) 200 sampleUser (.bool true) (by decide) rfl rfl

/-! ## `Forum.jsx`: `ws.onmessage` -/

/-- C4, as stated, fails: once the effect that built the socket has been
cleaned up (`isMounted` is false), a frame that parses as JSON with type
`'message'` leaves the display list as it is; no entry is appended. -/
theorem onmessage_unmounted_keeps_list :
    sampleFrame.getProp "type" = some (.str "message") ∧
    (onmessage false sampleUser (fun _ => 0) (some sampleFrame) []).length = 0 ∧
    (onmessage false sampleUser (fun _ => 0) (some sampleFrame) []).length ≠ 1 := by
  refine ⟨rfl, ?_, ?_⟩ <;> decide

/-- C4, amended: while the effect that built the socket has not been cleaned
up, for every display list `prev` and every incoming frame that parses as JSON
with type `'message'`, the `onmessage` handler sets the display list to `prev`
followed by exactly one new entry whose content, username and timestamp are the
frame's `message`, `username` and `timestamp` and whose `isOwn` is true exactly
when the frame's username equals (`===`) the current user's username; all
entries of `prev` are kept unchanged and in the same order.  The user closed
over is truthy, by the guard of line 149. -/
theorem onmessage_appends (user : JSValue) (clock : Nat → Nat) (data : JSValue)
    (prev : List Message) (hu : user.truthy = true)
    (ht : data.getProp "type" = some (.str "message")) :
    ∃ e mine, onmessage true user clock (some data) prev = prev ++ [e] ∧
      data.getProp "message" = some e.content ∧
      data.getProp "username" = some e.username ∧
      data.getProp "timestamp" = some e.timestamp ∧
      e.id = .live (clock 0) ∧
      user.getProp "username" = some mine ∧
      (e.isOwn = true ↔ e.username.strictEq mine = true) ∧
      (∀ a b, e.username = .str a → mine = .str b → (e.isOwn = true ↔ a = b)) := by
  cases data with
  | undefined => simp [JSValue.getProp] at ht
  | null => simp [JSValue.getProp] at ht
  | bool b => simp [JSValue.getProp] at ht
  | num x => simp [JSValue.getProp] at ht
  | str s => simp [JSValue.getProp] at ht
  | arr xs => simp [JSValue.getProp] at ht
  | obj props =>
    have hmine : ∃ mine, user.getProp "username" = some mine := by
      cases user with
      | undefined => simp [JSValue.truthy] at hu
      | null => simp [JSValue.truthy] at hu
      | bool b => exact ⟨_, rfl⟩
      | num x => exact ⟨_, rfl⟩
      | str s => exact ⟨_, rfl⟩
      | arr xs => exact ⟨_, rfl⟩
      | obj ps => exact ⟨_, rfl⟩
    obtain ⟨mine, hm⟩ := hmine
    refine ⟨{ id := .live (clock 0), content := JSValue.lookup "message" props,
              username := JSValue.lookup "username" props,
              timestamp := JSValue.lookup "timestamp" props,
              isOwn := (JSValue.lookup "username" props).strictEq mine }, mine,
            ?_, rfl, rfl, rfl, rfl, hm, Iff.rfl, ?_⟩
    · have h1 : (JSValue.str "message").strictEq (.str "history") = false := by decide
      have h2 : (JSValue.str "message").strictEq (.str "message") = true := by decide
      have hg : ∀ k, (JSValue.obj props).getProp k = some (JSValue.lookup k props) :=
        fun _ => rfl
      simp only [onmessage, Bool.not_true, Bool.false_eq_true, if_false, ht, h1, h2, if_true,
        liveEntry, hg, hm, Option.bind_eq_bind, Option.some_bind, Option.pure_def]
    · intro a b ha hb
      simp only at ha
      subst hb
      simp only [ha, JSValue.strictEq, decide_eq_true_eq]

/-- C4, amended, at a frame sent by the current user, appended to an empty
list. -/
theorem onmessage_appends_witness :
    ∃ e mine, onmessage true sampleUser (fun _ => 7) (some sampleFrame) [] = [] ++ [e] ∧
      sampleFrame.getProp "message" = some e.content ∧
      sampleFrame.getProp "username" = some e.username ∧
      sampleFrame.getProp "timestamp" = some e.timestamp ∧
      e.id = .live 7 ∧
      sampleUser.getProp "username" = some mine ∧
      (e.isOwn = true ↔ e.username.strictEq mine = true) ∧
      (∀ a b, e.username = .str a → mine = .str b → (e.isOwn = true ↔ a = b)) :=
  onmessage_appends sampleUser (fun _ => 7) sampleFrame [] rfl rfl

/-! ## `Forum.jsx`: readiness poll -/

/-- C5 on the code: a status check that ends in a failed request, in a body
that does not parse, or in the body `null` only logs the error; no timer is
set, although the run is still mounted.  A parsed answer with another status
sets the timer of 1000 ms, and only the answer `ACTIVE` sets `isChatReady`.
In the session `failedPollEvents` the history ends with the failed request and
the only poll run is left with neither a request out nor a timer set, while
`isChatReady` is false: the room never becomes ready. -/
theorem checkStatus_error_stops_poll :
    checkStatusDone true .fetchFailed = [.consoleError] ∧
    checkStatusDone true (.response none) = [.consoleError] ∧
    checkStatusDone true (.response (some .null)) = [.consoleError] ∧
    checkStatusDone true (.response (some (.obj [("status", .str "CREATING")]))) =
      [.setTimeout 1000] ∧
    checkStatusDone true activeStatus = [.setIsChatReady true] ∧
    (run defaultEnv (some "tok") failedPollEvents).log =
      [.getMe "https://rybmw.space/api/users/me",
       .getChatList "https://rybmw.space/api/chat/list",
       .setIsChatReady false,
       .getStatus "https://rybmw.space/api/chat/status/main",
       .consoleError] ∧
    (run defaultEnv (some "tok") failedPollEvents).polls.map PollRun.phase = [.idle] ∧
    (run defaultEnv (some "tok") failedPollEvents).isChatReady = false := by
  decide

/-! ## The transition system: sockets -/

theorem track_append (log l : List Action) :
    track (log ++ l) = l.foldl trackStep (track log) := by
  simp [track, List.foldl_append]

theorem updateAt_getElem? {α : Type} (f : α → α) (l : List α) :
    ∀ i j, (updateAt f i l)[j]? = if j = i then (l[j]?).map f else l[j]? := by
  induction l with
  | nil => intro i j; simp [updateAt]
  | cons x xs ih =>
    intro i j
    cases i with
    | zero =>
      cases j with
      | zero => simp [updateAt]
      | succ m => simp [updateAt]
    | succ n =>
      cases j with
      | zero => simp [updateAt]
      | succ m => simp [updateAt, ih n m]

theorem SameWs.refl (s : Forum) : SameWs s s := ⟨rfl, rfl, rfl, rfl⟩

theorem SameWs.trans {s t u : Forum} (h1 : SameWs s t) (h2 : SameWs t u) : SameWs s u :=
  ⟨h2.1.trans h1.1, h2.2.1.trans h1.2.1, h2.2.2.1.trans h1.2.2.1, h2.2.2.2.trans h1.2.2.2⟩

theorem WsInv.of_same {s t : Forum} (h : SameWs s t) (hs : WsInv s) : WsInv t := by
  obtain ⟨h1, h2, h3, h4⟩ := h
  obtain ⟨i1, i2, i3⟩ := hs
  refine ⟨?_, ?_, ?_⟩
  · rw [h4, h3, h2]; exact i1
  · intro i w hw hc
    rw [h1] at hw
    rw [h3]
    exact i2 i w hw hc
  · rw [h2, h3]; exact i3

theorem sameWs_callFetchChats (env : Env) (s : Forum) : SameWs s (callFetchChats env s) := by
  unfold callFetchChats
  split
  · exact SameWs.refl s
  · exact ⟨rfl, rfl, rfl, by simp [track_append, trackStep]⟩

theorem sameWs_chatsCleanupRun (s : Forum) : SameWs s (chatsCleanupRun s) :=
  ⟨rfl, rfl, rfl, rfl⟩

theorem sameWs_pollCleanupRun (s : Forum) : SameWs s (pollCleanupRun s) := by
  unfold pollCleanupRun
  split
  · exact SameWs.refl s
  · exact ⟨rfl, rfl, rfl, rfl⟩

theorem sameWs_authEffect (env : Env) (s : Forum) : SameWs s (authEffect env s) := by
  unfold authEffect
  split
  · exact ⟨rfl, rfl, rfl, rfl⟩
  · exact ⟨rfl, rfl, rfl, by simp [track_append, trackStep]⟩

theorem sameWs_chatsEffect (env : Env) (a : AuthState) (s : Forum) :
    SameWs s (chatsEffect env a s) := by
  unfold chatsEffect
  split
  · have h := sameWs_callFetchChats env { s with chatsDeps := some a }
    exact ⟨h.1, h.2.1, h.2.2.1, h.2.2.2⟩
  · exact ⟨rfl, rfl, rfl, rfl⟩

theorem sameWs_pollEffect (env : Env) (a : AuthState) (c : String) (s : Forum) :
    SameWs s (pollEffect env a c s) := by
  unfold pollEffect
  split
  · exact ⟨rfl, rfl, rfl, rfl⟩
  · exact ⟨rfl, rfl, rfl, by simp [track_append, trackStep]⟩

theorem sameWs_applyAuthCalls (calls : List AuthCall) :
    ∀ s : Forum, SameWs s (applyAuthCalls calls s) := by
  induction calls with
  | nil => intro s; exact SameWs.refl s
  | cons c rest ih =>
    intro s
    cases c with
    | getMe u a => exact ih s
    | removeToken => exact SameWs.trans ⟨rfl, rfl, rfl, rfl⟩ (ih _)
    | setUser u => exact SameWs.trans ⟨rfl, rfl, rfl, rfl⟩ (ih _)
    | setAuthState a => exact SameWs.trans ⟨rfl, rfl, rfl, rfl⟩ (ih _)

theorem sameWs_applyPollCalls (i : Nat) (calls : List PollCall) :
    ∀ s : Forum, SameWs s (applyPollCalls i calls s) := by
  induction calls with
  | nil => intro s; exact SameWs.refl s
  | cons c rest ih =>
    intro s
    cases c with
    | setIsChatReady b =>
      refine SameWs.trans ?_
        (ih { s with isChatReady := b, log := s.log ++ [.setIsChatReady b] })
      exact ⟨rfl, rfl, rfl, by simp [track_append, trackStep]⟩
    | setTimeout ms =>
      refine SameWs.trans ?_
        (ih { s with polls := updateAt (fun p => { p with phase := .waiting }) i s.polls,
                     log := s.log ++ [.setTimeout ms] })
      exact ⟨rfl, rfl, rfl, by simp [track_append, trackStep]⟩
    | consoleError =>
      refine SameWs.trans ?_ (ih { s with log := s.log ++ [.consoleError] })
      exact ⟨rfl, rfl, rfl, by simp [track_append, trackStep]⟩

/-- The cleanup of effect 5 closes the socket of the run and leaves no socket
open and the socket state null. -/
theorem wsInv_wsCleanupRun (s : Forum) (h : WsInv s) :
    WsInv (wsCleanupRun s) ∧ (wsCleanupRun s).wsCleanup = none ∧
      (wsCleanupRun s).socket = none := by
  obtain ⟨i1, i2, i3⟩ := h
  unfold wsCleanupRun
  cases hc : s.wsCleanup with
  | none =>
    simp only
    refine ⟨⟨i1, i2, i3⟩, hc, ?_⟩
    rcases i3 with h | h
    · exact h
    · rw [h, hc]
  | some k =>
    refine ⟨⟨?_, ?_, Or.inl rfl⟩, rfl, rfl⟩
    · simp [track_append, trackStep, i1, hc]
    · intro i w hw hcl
      simp only at hw
      simp only [updateAt_getElem?] at hw
      by_cases hik : i = k
      · subst hik
        simp only [if_true] at hw
        cases hs : s.sockets[i]? with
        | none => simp [hs] at hw
        | some w0 =>
          simp only [hs, Option.map_some', Option.some.injEq] at hw
          subst hw
          simp at hcl
      · simp only [hik, if_false] at hw
        have := i2 i w hw hcl
        rw [hc] at this
        exact absurd (Option.some.inj this).symm hik

/-- The body of effect 5 constructs a socket only when none is open and the
socket state is null. -/
theorem wsInv_wsEffect (env : Env) (a : AuthState) (u : JSValue) (v : Nat) (c : String)
    (r : Bool) (s : Forum) (h : WsInv s) (hc : s.wsCleanup = none) (hk : s.socket = none) :
    WsInv (wsEffect env a u v c r s) := by
  obtain ⟨i1, i2, i3⟩ := h
  unfold wsEffect
  simp only
  split
  · exact ⟨i1, i2, i3⟩
  · split
    · exact ⟨by simp [track_append, trackStep, i1], i2, i3⟩
    · refine ⟨?_, ?_, Or.inl hk⟩
      · simp [track_append, trackStep, i1, hc, hk]
      · intro i w hw hcl
        by_cases hi : i < s.sockets.length
        · rw [List.getElem?_append_left hi] at hw
          have := i2 i w hw hcl
          rw [hc] at this
          exact absurd this (by simp)
        · have hlen : s.sockets.length ≤ i := Nat.le_of_not_lt hi
          rw [List.getElem?_append_right hlen] at hw
          have : i - s.sockets.length = 0 := by
            by_contra hne
            obtain ⟨m, hm⟩ := Nat.exists_eq_succ_of_ne_zero hne
            rw [hm] at hw
            simp at hw
          have : i = s.sockets.length := by omega
          rw [this]

theorem sameWs_runIf (b : Bool) (f : Forum → Forum) (hf : ∀ s, SameWs s (f s))
    (s : Forum) : SameWs s (runIf b f s) := by
  unfold runIf
  split
  · exact hf s
  · exact SameWs.refl s

theorem wsInv_commit (env : Env) (s : Forum) (h : WsInv s) : WsInv (commit env s) := by
  unfold commit
  simp only
  generalize decide (s.chatsDeps ≠ some s.authState) = cc
  generalize decide (s.pollDeps ≠ some (s.selectedChat, s.authState)) = pc
  generalize decide (s.wsDeps ≠
    some (s.authState, s.userVersion, s.selectedChat, s.isChatReady)) = wc
  have e2 : SameWs s (runIf pc pollCleanupRun (runIf cc chatsCleanupRun s)) :=
    SameWs.trans (sameWs_runIf cc _ sameWs_chatsCleanupRun s)
      (sameWs_runIf pc _ sameWs_pollCleanupRun _)
  generalize runIf pc pollCleanupRun (runIf cc chatsCleanupRun s) = s2 at e2 ⊢
  have h2 : WsInv s2 := WsInv.of_same e2 h
  have mid : ∀ s3 : Forum, SameWs s3
      (runIf pc (pollEffect env s.authState s.selectedChat)
        (runIf cc (chatsEffect env s.authState)
          (runIf (!s.mounted) (authEffect env) s3))) := fun s3 =>
    SameWs.trans (sameWs_runIf _ _ (sameWs_authEffect env) s3)
      (SameWs.trans (sameWs_runIf cc _ (sameWs_chatsEffect env _) _)
        (sameWs_runIf pc _ (sameWs_pollEffect env _ _) _))
  have last : ∀ t : Forum, SameWs t (markMounted t) := fun t => ⟨rfl, rfl, rfl, rfl⟩
  cases wc with
  | false =>
    exact WsInv.of_same (SameWs.trans (mid s2) (last _)) h2
  | true =>
    obtain ⟨h3, hc3, hk3⟩ := wsInv_wsCleanupRun s2 h2
    have e := mid (wsCleanupRun s2)
    refine WsInv.of_same (last _) ?_
    exact wsInv_wsEffect env _ _ _ _ _ _ (WsInv.of_same e h3)
      (e.2.2.1.trans hc3) (e.2.1.trans hk3)

theorem wsInv_step (env : Env) (s : Forum) (e : Event) (h : WsInv s) :
    WsInv (step env s e) := by
  cases e with
  | commit => exact wsInv_commit env s h
  | authResponded outcome =>
    simp only [step]
    split
    · exact WsInv.of_same
        (SameWs.trans (t := { s with authPending := false }) ⟨rfl, rfl, rfl, rfl⟩
          (sameWs_applyAuthCalls _ _)) h
    · exact h
  | intervalTick =>
    simp only [step]
    split
    · exact WsInv.of_same (sameWs_callFetchChats env s) h
    · exact h
  | chatCreated =>
    simp only [step]
    split
    · exact WsInv.of_same (sameWs_callFetchChats env s) h
    · exact h
  | chatsResponded outcome =>
    simp only [step]
    split
    · split
      · exact WsInv.of_same ⟨rfl, rfl, rfl, rfl⟩ h
      · exact WsInv.of_same ⟨rfl, rfl, rfl, rfl⟩ h
    · exact h
  | clickChat chat =>
    simp only [step]
    split
    · exact WsInv.of_same ⟨rfl, rfl, rfl, rfl⟩ h
    · exact h
  | statusResponded i outcome =>
    simp only [step]
    split
    · exact h
    · rename_i p _
      split
      · refine WsInv.of_same (SameWs.trans ?_ (sameWs_applyPollCalls i _ _)) h
        refine ⟨rfl, rfl, rfl, ?_⟩
        simp only [track_append]
        split <;> simp [trackStep]
      · exact h
  | timerFired i =>
    simp only [step]
    split
    · exact h
    · split
      · exact WsInv.of_same (s := s) ⟨rfl, rfl, rfl, by simp [track_append, trackStep]⟩ h
      · exact h
  | wsOpened i =>
    simp only [step]
    split
    · exact h
    · rename_i w hw
      split
      · rename_i hm
        obtain ⟨i1, i2, i3⟩ := h
        have hc := i2 i w hw (Or.inr hm)
        refine ⟨?_, i2, Or.inr hc.symm⟩
        simp [track_append, trackStep, i1]
      · exact h
  | wsMessage i frame clock =>
    simp only [step]
    split
    · exact h
    · exact WsInv.of_same ⟨rfl, rfl, rfl, rfl⟩ h

theorem wsInv_init (token : Option String) : WsInv (Forum.init token) :=
  ⟨rfl, fun i w hw _ => by simp [Forum.init] at hw, Or.inl rfl⟩

theorem wsInv_foldl (env : Env) (events : List Event) :
    ∀ s : Forum, WsInv s → WsInv (events.foldl (step env) s) := by
  induction events with
  | nil => intro s h; exact h
  | cons e rest ih => intro s h; exact ih _ (wsInv_step env s e h)

theorem wsInv_run (env : Env) (token : Option String) (events : List Event) :
    WsInv (run env token events) :=
  wsInv_foldl env events _ (wsInv_init token)

theorem filter_length_le_one {α : Type} (p : α → Bool) (l : List α)
    (h : ∀ (i j : Nat) (a b : α), l[i]? = some a → l[j]? = some b → p a = true →
      p b = true → i = j) :
    (l.filter p).length ≤ 1 := by
  induction l with
  | nil => simp
  | cons x xs ih =>
    have hxs : ∀ (i j : Nat) (a b : α), xs[i]? = some a → xs[j]? = some b → p a = true →
        p b = true → i = j := by
      intro i j a b ha hb pa pb
      have := h (i + 1) (j + 1) a b (by simpa using ha) (by simpa using hb) pa pb
      omega
    by_cases hx : p x = true
    · have hnil : xs.filter p = [] := by
        rw [List.filter_eq_nil_iff]
        intro b hb pb
        obtain ⟨j, hj⟩ := List.getElem?_of_mem hb
        have := h 0 (j + 1) x b (by simp) (by simpa using hj) hx pb
        omega
      simp [List.filter_cons, hx, hnil]
    · simp only [List.filter_cons, hx]
      exact ih hxs

theorem wsEffect_keeps (env : Env) (a : AuthState) (u : JSValue) (v : Nat) (c : String)
    (r : Bool) (s : Forum) :
    (wsEffect env a u v c r s).socket = s.socket ∧
    ∀ i, i < s.sockets.length → (wsEffect env a u v c r s).sockets[i]? = s.sockets[i]? := by
  unfold wsEffect
  simp only
  split
  · exact ⟨rfl, fun _ _ => rfl⟩
  · split
    · exact ⟨rfl, fun _ _ => rfl⟩
    · exact ⟨rfl, fun i hi => List.getElem?_append_left hi⟩

/-- A commit in which a dependency of effect 5 changed closes the socket of the
previous run, unmounts that run and leaves the socket state null. -/
theorem commit_closes_previous (env : Env) (s : Forum) (i : Nat) (w : WsRun)
    (hc : s.wsCleanup = some i) (hw : s.sockets[i]? = some w)
    (hd : s.wsDeps ≠ some (s.authState, s.userVersion, s.selectedChat, s.isChatReady)) :
    (commit env s).sockets[i]? = some { w with isMounted := false, closed := true } ∧
    (commit env s).socket = none := by
  unfold commit
  simp only [hd, ne_eq, not_false_eq_true, decide_True]
  generalize decide (¬ s.chatsDeps = some s.authState) = cc
  generalize decide (¬ s.pollDeps = some (s.selectedChat, s.authState)) = pc
  have e2 : SameWs s (runIf pc pollCleanupRun (runIf cc chatsCleanupRun s)) :=
    SameWs.trans (sameWs_runIf cc _ sameWs_chatsCleanupRun s)
      (sameWs_runIf pc _ sameWs_pollCleanupRun _)
  generalize runIf pc pollCleanupRun (runIf cc chatsCleanupRun s) = s2 at e2 ⊢
  have mid : ∀ s3 : Forum, SameWs s3
      (runIf pc (pollEffect env s.authState s.selectedChat)
        (runIf cc (chatsEffect env s.authState)
          (runIf (!s.mounted) (authEffect env) s3))) := fun s3 =>
    SameWs.trans (sameWs_runIf _ _ (sameWs_authEffect env) s3)
      (SameWs.trans (sameWs_runIf cc _ (sameWs_chatsEffect env _) _)
        (sameWs_runIf pc _ (sameWs_pollEffect env _ _) _))
  have r1 : ∀ (f : Forum → Forum) (t : Forum), runIf true f t = f t := fun _ _ => rfl
  have m1 : ∀ t : Forum, (markMounted t).sockets = t.sockets := fun _ => rfl
  have m2 : ∀ t : Forum, (markMounted t).socket = t.socket := fun _ => rfl
  simp only [r1, m1, m2]
  have e := mid (wsCleanupRun s2)
  have hc2 : s2.wsCleanup = some i := e2.2.2.1.trans hc
  have hclean : (wsCleanupRun s2).sockets[i]? =
      some { w with isMounted := false, closed := true } ∧
      (wsCleanupRun s2).socket = none := by
    unfold wsCleanupRun
    simp only [hc2, updateAt_getElem?, if_true, e2.1, hw, Option.map_some', and_self]
  generalize wsCleanupRun s2 = s3 at e hclean ⊢
  generalize (runIf pc (pollEffect env s.authState s.selectedChat)
    (runIf cc (chatsEffect env s.authState)
      (runIf (!s.mounted) (authEffect env) s3))) = s6 at e ⊢
  have h6 : s6.sockets[i]? = some { w with isMounted := false, closed := true } := by
    rw [e.1]; exact hclean.1
  have hlt : i < s6.sockets.length := by
    by_contra hge
    rw [List.getElem?_eq_none (Nat.le_of_not_lt hge)] at h6
    exact absurd h6 (by simp)
  obtain ⟨k1, k2⟩ := wsEffect_keeps env s.authState s.user s.userVersion s.selectedChat
    s.isChatReady s6
  exact ⟨(k2 i hlt).trans h6, k1.trans (e.2.1.trans hclean.2)⟩

/-- C6: in every reachable state of the Forum component at most one socket
created by the component is not closed, and a socket that is not closed is the
one the pending cleanup of the effect closes; whenever `selectedChat`,
`authState`, `user` or `isChatReady` changed, the commit closes the socket of
the previous run of the effect and resets the socket state to null, and every
socket is constructed after that `close()` and `setSocket(null)`
(`closesBeforeOpens` on the history of calls); and a frame arriving on a socket
whose effect has been cleaned up does not change the display list. -/
theorem socket_discipline (env : Env) (token : Option String) (events : List Event) :
    (run env token events).openSockets.length ≤ 1 ∧
    (∀ (ws : Nat) (w : WsRun), (run env token events).sockets[ws]? = some w →
      w.closed = false → (run env token events).wsCleanup = some ws) ∧
    (∀ (ws : Nat) (w : WsRun), (run env token events).sockets[ws]? = some w →
      w.closed = false →
      (run env token events).wsDeps ≠
        some ((run env token events).authState, (run env token events).userVersion,
              (run env token events).selectedChat, (run env token events).isChatReady) →
      (commit env (run env token events)).sockets[ws]? =
        some { w with isMounted := false, closed := true } ∧
      (commit env (run env token events)).socket = none) ∧
    closesBeforeOpens (run env token events).log = true ∧
    (∀ (ws : Nat) (w : WsRun) (frame : Option JSValue) (clock : Nat → Nat),
      (run env token events).sockets[ws]? = some w → w.isMounted = false →
      (step env (run env token events) (.wsMessage ws frame clock)).messages =
        (run env token events).messages) := by
  obtain ⟨i1, i2, i3⟩ := wsInv_run env token events
  refine ⟨?_, ?_, ?_, ?_, ?_⟩
  · unfold Forum.openSockets
    apply filter_length_le_one
    intro i j a b ha hb pa pb
    have h1 := i2 i a ha (Or.inl (by simpa using pa))
    have h2 := i2 j b hb (Or.inl (by simpa using pb))
    rw [h1] at h2
    exact Option.some.inj h2
  · intro ws w hw hc
    exact i2 ws w hw (Or.inl hc)
  · intro ws w hw hc hd
    exact commit_closes_previous env _ ws w (i2 ws w hw (Or.inl hc)) hw hd
  · unfold closesBeforeOpens
    rw [i1]
  · intro ws w frame clock hw hm
    simp only [step, hw, onmessage, hm, Bool.not_false, if_true]

/-- C6 at the session `roomChangeEvents`: the socket of room `main` was closed
by the cleanup that ran when the user clicked `b`, and a frame that arrives on
it afterwards leaves the display list as it is. -/
theorem socket_discipline_witness :
    (step defaultEnv (run defaultEnv (some "tok") roomChangeEvents)
        (.wsMessage 0 (some sampleFrame) (fun _ => 0))).messages =
      (run defaultEnv (some "tok") roomChangeEvents).messages :=
  (socket_discipline defaultEnv (some "tok") roomChangeEvents).2.2.2.2 0
    { room := "main", user := sampleUser, token := some "tok", isMounted := false,
      closed := true }
    (some sampleFrame) (fun _ => 0) rfl rfl

/-! ## The transition system: readiness before connecting -/

/-- C1 on the code: in the session `roomChangeEvents` room `main` is ready and
connected when the user clicks room `b`.  The commit that follows runs the
WebSocket effect with the `isChatReady` of that render, which is still true, so
`new WebSocket` for room `b` is called right after the status request for `b`
was sent and before any answer to it: the history holds no `ACTIVE` answer for
`b`. -/
theorem socket_opened_before_room_ready :
    (run defaultEnv (some "tok") roomChangeEvents).log =
      [.getMe "https://rybmw.space/api/users/me",
       .getChatList "https://rybmw.space/api/chat/list",
       .setIsChatReady false,
       .getStatus "https://rybmw.space/api/chat/status/main",
       .statusActive "main",
       .setIsChatReady true,
       .newWebSocket 0 "wss://rybmw.space/api/ws/chat/main",
       .setSocket (some 0),
       .wsSend 0,
       .wsClose 0,
       .setSocket none,
       .setIsChatReady false,
       .getStatus "https://rybmw.space/api/chat/status/b",
       .newWebSocket 1 "wss://rybmw.space/api/ws/chat/b"] ∧
    (run defaultEnv (some "tok") roomChangeEvents).selectedChat = "b" ∧
    opensBeforeActive "b" (socketUrl defaultEnv.wsUrl "b")
      (run defaultEnv (some "tok") roomChangeEvents).log = true := by
  decide

/-- C3 on the code: in the session `invalidNameEvents` the server lists the
chat `chat_a b`, the user clicks the entry `a b`, and the status poll requests
`/api/chat/status/a b`, a name that `VALID_NAME_REGEX` rejects; only the
WebSocket effect tests the name. -/
theorem status_poll_requests_unvalidated_name :
    (run defaultEnv (some "tok") invalidNameEvents).selectedChat = "a b" ∧
    VALID_NAME_REGEX.test "a b".data = false ∧
    (run defaultEnv (some "tok") invalidNameEvents).log =
      [.getMe "https://rybmw.space/api/users/me",
       .getChatList "https://rybmw.space/api/chat/list",
       .setIsChatReady false,
       .getStatus "https://rybmw.space/api/chat/status/main",
       .setIsChatReady false,
       .getStatus (statusUrl defaultEnv.apiUrl "a b")] ∧
    statusUrl defaultEnv.apiUrl "a b" = "https://rybmw.space/api/chat/status/a b" := by
  decide
end SecureWebsite
